import Mathlib

/-!
Verification development for the ride-dispatch system.

The Python sources keep three identity-keyed, insertion-ordered dictionaries
(drivers, riders, ride_requests) plus a tick counter as global state.  We
embed the state as a `Store` of lists ordered by insertion, with lookup and
in-place update modelled by `keyedFind` / `keyedUpd` over the identity field.
Operations that can raise an HTTP error are modelled as `Res`, which carries
the store left behind on failure (the Python globals persist whatever had
been mutated before the exception).
-/

set_option linter.unusedVariables false

structure Location where
  x : Int
  y : Int
deriving DecidableEq, Repr

inductive DriverStatus where
  | idle
  | going_to_pickup
  | driving_to_dest
  | busy
deriving DecidableEq, Repr

inductive RiderStatus where
  | waiting
  | assigned
  | in_transit
  | completed
deriving DecidableEq, Repr

structure Driver where
  id : String
  location : Location
  status : DriverStatus
  pending_requests : List String
  current_ride_id : Option String
deriving DecidableEq, Repr

structure Rider where
  id : String
  pickup_location : Location
  dropoff_location : Location
  status : RiderStatus
  current_ride_id : Option String
deriving DecidableEq, Repr

/-- Ride-request statuses are bare strings in the source
("pending", "accepted", "rejected", "completed"), kept as `String` here. -/
structure RideRequest where
  id : String
  rider_id : String
  pickup_location : Location
  dropoff_location : Location
  status : String
  assigned_driver_id : Option String
  rejected_by : List String
deriving DecidableEq, Repr

structure Store where
  drivers : List Driver
  riders : List Rider
  ride_requests : List RideRequest
  current_tick : Nat
deriving DecidableEq, Repr

def emptyStore : Store := ⟨[], [], [], 0⟩

/-- Result of an operation: on failure the store is whatever the globals
held when the exception was raised (mutations before the raise persist). -/
inductive Res where
  | success (s : Store)
  | failure (s : Store)
deriving DecidableEq, Repr

def Res.store : Res → Store
  | .success s => s
  | .failure s => s

def Res.isOk : Res → Bool
  | .success _ => true
  | .failure _ => false

/-! ### Keyed association-list primitives (dict lookup / in-place value mutation) -/

def keyedFind {α : Type} (key : α → String) (i : String) : List α → Option α
  | [] => none
  | a :: l => if key a = i then some a else keyedFind key i l

def keyedUpd {α : Type} (key : α → String) (i : String) (f : α → α) (l : List α) : List α :=
  l.map (fun a => if key a = i then f a else a)

theorem keyedFind_key {α : Type} {key : α → String} {i : String} {l : List α} {a : α}
    (h : keyedFind key i l = some a) : key a = i := by
  induction l with
  | nil => simp [keyedFind] at h
  | cons b l ih =>
    by_cases hb : key b = i
    · rw [keyedFind, if_pos hb] at h
      cases h
      exact hb
    · rw [keyedFind, if_neg hb] at h
      exact ih h

theorem keyedFind_mem {α : Type} {key : α → String} {i : String} {l : List α} {a : α}
    (h : keyedFind key i l = some a) : a ∈ l := by
  induction l with
  | nil => simp [keyedFind] at h
  | cons b l ih =>
    by_cases hb : key b = i
    · rw [keyedFind, if_pos hb] at h
      cases h
      exact List.mem_cons_self _ _
    · rw [keyedFind, if_neg hb] at h
      exact List.mem_cons_of_mem _ (ih h)

theorem keyedFind_upd_self {α : Type} {key : α → String} {i : String} {f : α → α}
    (hf : ∀ a, key a = i → key (f a) = i) (l : List α) :
    keyedFind key i (keyedUpd key i f l) = (keyedFind key i l).map f := by
  induction l with
  | nil => simp [keyedFind, keyedUpd]
  | cons b l ih =>
    by_cases hb : key b = i
    · simp only [keyedUpd, List.map_cons, keyedFind, if_pos hb, if_pos (hf b hb)]
      rfl
    · simp only [keyedUpd, List.map_cons, keyedFind, if_neg hb]
      exact ih

theorem keyedFind_upd_ne {α : Type} {key : α → String} {i j : String} {f : α → α}
    (hf : ∀ a, key a = i → key (f a) = i) (hji : j ≠ i) (l : List α) :
    keyedFind key j (keyedUpd key i f l) = keyedFind key j l := by
  induction l with
  | nil => simp [keyedFind, keyedUpd]
  | cons b l ih =>
    by_cases hb : key b = i
    · have h1 : key (f b) ≠ j := by rw [hf b hb]; exact fun h => hji h.symm
      have h2 : key b ≠ j := by rw [hb]; exact fun h => hji h.symm
      simp only [keyedUpd, List.map_cons, keyedFind, if_pos hb, if_neg h1, if_neg h2]
      exact ih
    · simp only [keyedUpd, List.map_cons, keyedFind, if_neg hb]
      by_cases hbj : key b = j
      · simp [if_pos hbj]
      · simp only [if_neg hbj]
        exact ih

theorem keys_keyedUpd {α : Type} {key : α → String} {i : String} {f : α → α}
    (hf : ∀ a, key a = i → key (f a) = i) (l : List α) :
    (keyedUpd key i f l).map key = l.map key := by
  induction l with
  | nil => rfl
  | cons b l ih =>
    have ih' : List.map key (List.map (fun a => if key a = i then f a else a) l)
        = List.map key l := ih
    by_cases hb : key b = i
    · simp only [keyedUpd, List.map_cons, if_pos hb, ih']
      rw [hf b hb, hb]
    · simp only [keyedUpd, List.map_cons, if_neg hb, ih']

theorem keyedFind_isSome_upd {α : Type} {key : α → String} {i j : String} {f : α → α}
    (hf : ∀ a, key a = i → key (f a) = i) (l : List α) :
    (keyedFind key j (keyedUpd key i f l)).isSome = (keyedFind key j l).isSome := by
  by_cases hji : j = i
  · subst hji
    rw [keyedFind_upd_self hf l]
    cases keyedFind key j l <;> rfl
  · rw [keyedFind_upd_ne hf hji l]

theorem keyedFind_of_mem_nodup {α : Type} {key : α → String} {l : List α} {a : α}
    (hnd : (l.map key).Nodup) (ha : a ∈ l) : keyedFind key (key a) l = some a := by
  induction l with
  | nil => simp at ha
  | cons b l ih =>
    simp only [List.map_cons, List.nodup_cons] at hnd
    rcases List.mem_cons.mp ha with h | h
    · subst h
      simp [keyedFind]
    · have hne : key b ≠ key a := by
        intro he
        exact hnd.1 (he ▸ List.mem_map_of_mem key h)
      rw [keyedFind, if_neg hne]
      exact ih hnd.2 h

theorem mem_keyedUpd_nodup {α : Type} {key : α → String} {i : String} {f : α → α}
    {l : List α} {b : α} (hnd : (l.map key).Nodup)
    (hb : b ∈ keyedUpd key i f l) :
    (b ∈ l ∧ key b ≠ i) ∨ ∃ a, keyedFind key i l = some a ∧ b = f a := by
  rcases List.mem_map.mp hb with ⟨a, ha, hab⟩
  by_cases hk : key a = i
  · right
    refine ⟨a, ?_, ?_⟩
    · rw [← hk]; exact keyedFind_of_mem_nodup hnd ha
    · rw [← hab, if_pos hk]
  · left
    rw [← hab, if_neg hk]
    exact ⟨ha, hk⟩

/-! ### Store accessors -/

def findDriver (s : Store) (i : String) : Option Driver := keyedFind Driver.id i s.drivers

def findRider (s : Store) (i : String) : Option Rider := keyedFind Rider.id i s.riders

def findRide (s : Store) (i : String) : Option RideRequest :=
  keyedFind RideRequest.id i s.ride_requests

def updateDriver (s : Store) (i : String) (f : Driver → Driver) : Store :=
  { s with drivers := keyedUpd Driver.id i f s.drivers }

def updateRider (s : Store) (i : String) (f : Rider → Rider) : Store :=
  { s with riders := keyedUpd Rider.id i f s.riders }

def updateRide (s : Store) (i : String) (f : RideRequest → RideRequest) : Store :=
  { s with ride_requests := keyedUpd RideRequest.id i f s.ride_requests }

/-! ### Configuration constants (main.py lines 68-69) -/

def GRID_SIZE : Int := 100

def MAX_DRIVER_REQUESTS : Nat := 5

/-! ### Distance

The source computes `math.sqrt((x2-x1)**2 + (y2-y1)**2)` as a float and
sorts by it.  We embed the squared distance `dist2` exactly over `Int`; the
idealised float value is `Real.sqrt` of it.  For the coordinates the system
can produce (inside the 100x100 grid) the squared distances are at most
2*99^2 = 19602, where the correctly rounded IEEE double sqrt is strictly
monotone, so sorting by the float distance coincides with sorting by
`dist2`. -/

def dist2 (location1 location2 : Location) : Int :=
  (location2.x - location1.x) ^ 2 + (location2.y - location1.y) ^ 2

noncomputable def calculate_euclidean_distance (location1 location2 : Location) : ℝ :=
  Real.sqrt ((dist2 location1 location2 : Int) : ℝ)

/-! ### Stable ascending sort by distance key

Python's `list.sort(key=lambda x: x[1])` is the stable ascending sort by
the numeric key; a stable sort's output is uniquely determined, so this
insertion sort embeds it faithfully. -/

def insertByDist (p : String × Int) : List (String × Int) → List (String × Int)
  | [] => [p]
  | q :: l => if q.2 < p.2 then q :: insertByDist p l else p :: q :: l

def sortByDist : List (String × Int) → List (String × Int)
  | [] => []
  | p :: l => insertByDist p (sortByDist l)

theorem mem_insertByDist {p q : String × Int} {l : List (String × Int)} :
    q ∈ insertByDist p l ↔ q = p ∨ q ∈ l := by
  induction l with
  | nil => simp [insertByDist]
  | cons b l ih =>
    by_cases hb : b.2 < p.2
    · simp only [insertByDist, if_pos hb, List.mem_cons, ih]
      tauto
    · simp only [insertByDist, if_neg hb, List.mem_cons]

theorem mem_sortByDist {q : String × Int} {l : List (String × Int)} :
    q ∈ sortByDist l ↔ q ∈ l := by
  induction l with
  | nil => simp [sortByDist]
  | cons b l ih =>
    simp only [sortByDist, mem_insertByDist, List.mem_cons, ih]

theorem pairwise_insertByDist {p : String × Int} {l : List (String × Int)}
    (h : l.Pairwise (fun a b => a.2 ≤ b.2)) :
    (insertByDist p l).Pairwise (fun a b => a.2 ≤ b.2) := by
  induction l with
  | nil => simp [insertByDist]
  | cons b l ih =>
    rcases List.pairwise_cons.mp h with ⟨hb, hl⟩
    by_cases hlt : b.2 < p.2
    · rw [insertByDist, if_pos hlt]
      refine List.pairwise_cons.mpr ⟨?_, ih hl⟩
      intro q hq
      rcases mem_insertByDist.mp hq with h1 | h1
      · subst h1; exact le_of_lt hlt
      · exact hb q h1
    · rw [insertByDist, if_neg hlt]
      push_neg at hlt
      refine List.pairwise_cons.mpr ⟨?_, h⟩
      intro q hq
      rcases List.mem_cons.mp hq with h1 | h1
      · subst h1; exact hlt
      · exact le_trans hlt (hb q h1)

theorem pairwise_sortByDist (l : List (String × Int)) :
    (sortByDist l).Pairwise (fun a b => a.2 ≤ b.2) := by
  induction l with
  | nil => simp [sortByDist]
  | cons b l ih => exact pairwise_insertByDist ih

/-! ### helpers.py routing core (parameterised over the collections and the cap) -/

namespace Helpers

/-- helpers.py `find_available_drivers(drivers, pickup_location, exclude_drivers,
max_driver_requests)`: filter IDLE, not excluded, queue below the cap, pair
with the distance to the pickup, sort ascending by distance. -/
def find_available_drivers (drivers : List Driver) (pickup_location : Location)
    (exclude_drivers : List String) (max_driver_requests : Nat) : List (String × Int) :=
  sortByDist ((drivers.filter (fun d =>
      decide (d.id ∉ exclude_drivers) && decide (d.status = DriverStatus.idle) &&
      decide (d.pending_requests.length < max_driver_requests))).map
    (fun d => (d.id, dist2 d.location pickup_location)))

/-- helpers.py `send_request_to_next_driver(ride_request, drivers, ride_requests,
max_driver_requests)`: route the ride (identified by `rid`, which the callers
always pass as a request present in `ride_requests`) to the closest available
driver, or mark it rejected.  Returns the updated (drivers, ride_requests). -/
def send_request_to_next_driver (drivers : List Driver) (ride_requests : List RideRequest)
    (rid : String) (max_driver_requests : Nat) : List Driver × List RideRequest :=
  match keyedFind RideRequest.id rid ride_requests with
  | none => (drivers, ride_requests)
  | some ride_request =>
    match find_available_drivers drivers ride_request.pickup_location
        ride_request.rejected_by max_driver_requests with
    | [] =>
      (drivers, keyedUpd RideRequest.id rid
        (fun r => { r with status := "rejected", assigned_driver_id := none }) ride_requests)
    | (next_driver_id, _) :: _ =>
      (keyedUpd Driver.id next_driver_id
        (fun d => { d with pending_requests := d.pending_requests ++ [rid] }) drivers,
       keyedUpd RideRequest.id rid
        (fun r => { r with assigned_driver_id := some next_driver_id }) ride_requests)

/-- helpers.py `move_driver_towards_location`: one step per axis toward the
target; returns the moved driver and whether the target was reached. -/
def move_driver_towards_location (driver : Driver) (target_location : Location) :
    Driver × Bool :=
  let loc := driver.location
  let x1 := if loc.x < target_location.x then loc.x + 1
            else if target_location.x < loc.x then loc.x - 1 else loc.x
  let y1 := if loc.y < target_location.y then loc.y + 1
            else if target_location.y < loc.y then loc.y - 1 else loc.y
  ({ driver with location := ⟨x1, y1⟩ },
   decide (x1 = target_location.x) && decide (y1 = target_location.y))

end Helpers

/-! ### main.py core -/

namespace Main

/-- main.py `find_available_drivers`: same filter and sort over the global
driver dict, with the cap fixed to `MAX_DRIVER_REQUESTS`. -/
def find_available_drivers (s : Store) (pickup_location : Location)
    (exclude_drivers : List String) : List (String × Int) :=
  sortByDist ((s.drivers.filter (fun d =>
      decide (d.id ∉ exclude_drivers) && decide (d.status = DriverStatus.idle) &&
      decide (d.pending_requests.length < MAX_DRIVER_REQUESTS))).map
    (fun d => (d.id, dist2 d.location pickup_location)))

/-- main.py `send_request_to_next_driver`: callers always pass a request that
is present in the store; for an absent id no mutation is modelled (the Python
function receives the object itself). -/
def send_request_to_next_driver (s : Store) (rid : String) : Store :=
  match findRide s rid with
  | none => s
  | some ride_request =>
    match find_available_drivers s ride_request.pickup_location ride_request.rejected_by with
    | [] =>
      updateRide s rid (fun r => { r with status := "rejected", assigned_driver_id := none })
    | (next_driver_id, _) :: _ =>
      updateRide
        (updateDriver s next_driver_id
          (fun d => { d with pending_requests := d.pending_requests ++ [rid] }))
        rid (fun r => { r with assigned_driver_id := some next_driver_id })

/-- main.py `create_driver` (fresh uuid passed in as `did`). -/
def create_driver (s : Store) (did : String) (location : Location) : Res :=
  if location.x < 0 ∨ location.y < 0 ∨ GRID_SIZE ≤ location.x ∨ GRID_SIZE ≤ location.y then
    .failure s
  else
    .success { s with drivers := s.drivers ++
      [{ id := did, location := location, status := .idle,
         pending_requests := [], current_ride_id := none }] }

/-- main.py `delete_driver`. -/
def delete_driver (s : Store) (did : String) : Res :=
  if (findDriver s did).isSome then
    .success { s with drivers := s.drivers.filter (fun d => decide (d.id ≠ did)) }
  else
    .failure s

/-- main.py `create_rider` (fresh uuid passed in as `rid`). -/
def create_rider (s : Store) (rid : String)
    (pickup_location dropoff_location : Location) : Res :=
  if pickup_location.x < 0 ∨ pickup_location.y < 0 ∨
      GRID_SIZE ≤ pickup_location.x ∨ GRID_SIZE ≤ pickup_location.y then
    .failure s
  else if dropoff_location.x < 0 ∨ dropoff_location.y < 0 ∨
      GRID_SIZE ≤ dropoff_location.x ∨ GRID_SIZE ≤ dropoff_location.y then
    .failure s
  else if pickup_location.x = dropoff_location.x ∧ pickup_location.y = dropoff_location.y then
    .failure s
  else
    .success { s with riders := s.riders ++
      [{ id := rid, pickup_location := pickup_location,
         dropoff_location := dropoff_location, status := .waiting,
         current_ride_id := none }] }

/-- main.py `delete_rider`. -/
def delete_rider (s : Store) (rid : String) : Res :=
  if (findRider s rid).isSome then
    .success { s with riders := s.riders.filter (fun r => decide (r.id ≠ rid)) }
  else
    .failure s

/-- main.py `request_ride` (fresh uuid passed in as `ride_id`): create the
request from the rider's locations, route it inline to the closest available
driver (or mark it rejected), then insert it into the store. -/
def request_ride (s : Store) (rider_id ride_id : String) : Res :=
  match findRider s rider_id with
  | none => .failure s
  | some rider =>
    let base : RideRequest :=
      { id := ride_id, rider_id := rider_id,
        pickup_location := rider.pickup_location,
        dropoff_location := rider.dropoff_location,
        status := "pending", assigned_driver_id := none, rejected_by := [] }
    match find_available_drivers s rider.pickup_location [] with
    | [] =>
      .success { s with ride_requests := s.ride_requests ++ [{ base with status := "rejected" }] }
    | (closest_driver_id, _) :: _ =>
      let s1 := updateDriver s closest_driver_id
        (fun d => { d with pending_requests := d.pending_requests ++ [ride_id] })
      .success { s1 with ride_requests := s1.ride_requests ++
        [{ base with assigned_driver_id := some closest_driver_id }] }

/-- The fan-out loop inside main.py `driver_respond_to_ride` accept: for each
other ride id still in the accepting driver's queue (snapshot), look it up
(KeyError aborts with the partially mutated store), append the accepting
driver to its rejected_by, clear its assigned driver, and re-route it. -/
def cascade (accepting_driver_id : String) : List String → Store → Res
  | [], s => .success s
  | other_ride_id :: rest, s =>
    match findRide s other_ride_id with
    | none => .failure s
    | some _ =>
      let s1 := updateRide s other_ride_id (fun r =>
        { r with rejected_by := r.rejected_by ++ [accepting_driver_id],
                 assigned_driver_id := none })
      cascade accepting_driver_id rest (send_request_to_next_driver s1 other_ride_id)

/-- Accept branch of main.py `driver_respond_to_ride`, after all validations
passed: `ride`/`driver` are the looked-up records, `did` the assigned driver
id.  A missing owning rider raises only after every other mutation. -/
def acceptPath (s : Store) (rid did : String) (ride : RideRequest) (driver : Driver) : Res :=
  let s1 := updateRide s rid (fun r => { r with status := "accepted" })
  let s2 := updateDriver s1 did (fun d =>
    { d with status := .going_to_pickup, current_ride_id := some rid,
             pending_requests := d.pending_requests.erase rid })
  match cascade did (driver.pending_requests.erase rid) s2 with
  | .failure s' => .failure s'
  | .success s3 =>
    let s4 := updateDriver s3 did (fun d => { d with pending_requests := [] })
    match findRider s4 ride.rider_id with
    | none => .failure s4
    | some rider =>
      .success (updateRider s4 ride.rider_id (fun _ =>
        { rider with status := .assigned, current_ride_id := some rid }))

/-- Reject branch of main.py `driver_respond_to_ride` after validations. -/
def rejectPath (s : Store) (rid did : String) : Res :=
  let s1 := updateRide s rid (fun r => { r with rejected_by := r.rejected_by ++ [did] })
  let s2 := updateDriver s1 did (fun d =>
    { d with pending_requests := d.pending_requests.erase rid })
  .success (send_request_to_next_driver s2 rid)

/-- Python's `str.lower()` on the action string; structurally recursive
per-character lowering (identical to `String.toLower` on these ASCII
strings, but reducible by the kernel). -/
def strLower (s : String) : String :=
  ⟨s.data.map Char.toLower⟩

/-- main.py `driver_respond_to_ride`.  Python treats an assigned driver id
that is the empty string like a missing one (string truthiness); ids are
always non-empty uuids, so that case is not modelled. -/
def driver_respond_to_ride (s : Store) (rid : String) (action : String) : Res :=
  match findRide s rid with
  | none => .failure s
  | some ride =>
    if ride.status = "pending" then
      match ride.assigned_driver_id with
      | none => .failure s
      | some did =>
        match findDriver s did with
        | none => .failure s
        | some driver =>
          if strLower action = "accept" then
            if driver.status = DriverStatus.idle then
              acceptPath s rid did ride driver
            else .failure s
          else if strLower action = "reject" then
            rejectPath s rid did
          else .failure s
    else .failure s

end Main

/-! ### Tick movement (main.py inlines the same per-axis step as helpers.py) -/

def stepToward (p t : Int) : Int :=
  if p < t then p + 1 else if t < p then p - 1 else p

def moveToward (loc target : Location) : Location :=
  ⟨stepToward loc.x target.x, stepToward loc.y target.y⟩

/-- Location after `k` ticks of movement toward a fixed target. -/
def moveN (loc target : Location) : Nat → Location
  | 0 => loc
  | k + 1 => moveToward (moveN loc target k) target

namespace Main

/-- One iteration of the main.py `tick` loop body for the ride id `rid`:
only ACCEPTED rides with an assigned driver are processed; missing driver or
rider dict lookups raise (failure), keeping the store mutated so far. -/
def tickStep (s : Store) (rid : String) : Res :=
  match findRide s rid with
  | none => .success s
  | some ride =>
    if ride.status = "accepted" then
      match ride.assigned_driver_id with
      | none => .success s
      | some did =>
        match findDriver s did with
        | none => .failure s
        | some driver =>
          match findRider s ride.rider_id with
          | none => .failure s
          | some rider =>
            if driver.status = DriverStatus.going_to_pickup then
              let d1 := if driver.location ≠ ride.pickup_location then
                  { driver with location := moveToward driver.location ride.pickup_location }
                else driver
              if d1.location = ride.pickup_location then
                .success (updateRider
                  (updateDriver s did (fun _ => { d1 with status := .driving_to_dest }))
                  ride.rider_id (fun _ => { rider with status := .in_transit }))
              else
                .success (updateDriver s did (fun _ => d1))
            else if driver.status = DriverStatus.driving_to_dest then
              let d1 := if driver.location ≠ ride.dropoff_location then
                  { driver with location := moveToward driver.location ride.dropoff_location }
                else driver
              if d1.location = ride.dropoff_location then
                .success (updateRider
                  (updateDriver
                    (updateRide s rid (fun r => { r with status := "completed" }))
                    did (fun _ => { d1 with status := .idle, current_ride_id := none }))
                  ride.rider_id (fun _ =>
                    { rider with status := .completed, current_ride_id := none }))
              else
                .success (updateDriver s did (fun _ => d1))
            else .success s
    else .success s

def tickLoop : List String → Store → Res
  | [], s => .success s
  | rid :: rest, s =>
    match tickStep s rid with
    | .failure s' => .failure s'
    | .success s' => tickLoop rest s'

/-- main.py `tick`: the counter is incremented before any ride is processed;
an exception mid-loop leaves the incremented counter and all earlier
mutations in place. -/
def tick (s : Store) : Res :=
  tickLoop (s.ride_requests.map RideRequest.id) { s with current_tick := s.current_tick + 1 }

end Main

/-! ### Distance lemmas -/

theorem dist2_comm (a b : Location) : dist2 a b = dist2 b a := by
  unfold dist2
  ring

theorem dist2_nonneg (a b : Location) : 0 ≤ dist2 a b := by
  unfold dist2
  positivity

theorem dist2_eq_zero_iff (a b : Location) : dist2 a b = 0 ↔ a = b := by
  unfold dist2
  constructor
  · intro h
    have hx : (b.x - a.x) ^ 2 = 0 := by nlinarith [sq_nonneg (b.x - a.x), sq_nonneg (b.y - a.y)]
    have hy : (b.y - a.y) ^ 2 = 0 := by nlinarith [sq_nonneg (b.x - a.x), sq_nonneg (b.y - a.y)]
    have hx' := sub_eq_zero.mp (sq_eq_zero_iff.mp hx)
    have hy' := sub_eq_zero.mp (sq_eq_zero_iff.mp hy)
    cases a; cases b
    simp_all
  · intro h
    subst h
    ring

/-- C9: for locations inside the grid bounds, the distance is symmetric and
zero iff the two locations coincide.  (In fact the bounds are not needed.) -/
theorem spec_C9 (a b : Location)
    (ha : 0 ≤ a.x ∧ a.x < GRID_SIZE ∧ 0 ≤ a.y ∧ a.y < GRID_SIZE)
    (hb : 0 ≤ b.x ∧ b.x < GRID_SIZE ∧ 0 ≤ b.y ∧ b.y < GRID_SIZE) :
    calculate_euclidean_distance a b = calculate_euclidean_distance b a ∧
    (calculate_euclidean_distance a b = 0 ↔ a = b) := by
  constructor
  · unfold calculate_euclidean_distance
    rw [dist2_comm]
  · unfold calculate_euclidean_distance
    rw [Real.sqrt_eq_zero (by exact_mod_cast dist2_nonneg a b)]
    rw [show ((dist2 a b : Int) : ℝ) = 0 ↔ dist2 a b = 0 from Int.cast_eq_zero]
    exact dist2_eq_zero_iff a b

/-- Witness for C9 at the concrete in-bounds pair (0,0), (3,4). -/
theorem spec_C9_witness :
    calculate_euclidean_distance ⟨0, 0⟩ ⟨3, 4⟩ = calculate_euclidean_distance ⟨3, 4⟩ ⟨0, 0⟩ ∧
    (calculate_euclidean_distance ⟨0, 0⟩ ⟨3, 4⟩ = 0 ↔ (⟨0, 0⟩ : Location) = ⟨3, 4⟩) :=
  spec_C9 ⟨0, 0⟩ ⟨3, 4⟩ (by decide) (by decide)

/-! ### Movement lemmas -/

theorem stepToward_natAbs (x t : Int) :
    (t - stepToward x t).natAbs = (t - x).natAbs - 1 := by
  unfold stepToward
  split_ifs <;> omega

theorem moveN_dist (l t : Location) (k : Nat) :
    (t.x - (moveN l t k).x).natAbs = (t.x - l.x).natAbs - k ∧
    (t.y - (moveN l t k).y).natAbs = (t.y - l.y).natAbs - k := by
  induction k with
  | zero => simp [moveN]
  | succ k ih =>
    have hx : (moveN l t (k + 1)).x = stepToward (moveN l t k).x t.x := rfl
    have hy : (moveN l t (k + 1)).y = stepToward (moveN l t k).y t.y := rfl
    rw [hx, hy, stepToward_natAbs, stepToward_natAbs]
    omega

theorem moveN_between (l t : Location) (k : Nat) :
    min l.x t.x ≤ (moveN l t k).x ∧ (moveN l t k).x ≤ max l.x t.x ∧
    min l.y t.y ≤ (moveN l t k).y ∧ (moveN l t k).y ≤ max l.y t.y := by
  induction k with
  | zero => constructor <;> simp [moveN]
  | succ k ih =>
    have hx : (moveN l t (k + 1)).x = stepToward (moveN l t k).x t.x := rfl
    have hy : (moveN l t (k + 1)).y = stepToward (moveN l t k).y t.y := rfl
    rw [hx, hy]
    unfold stepToward
    split_ifs <;> omega

/-- C7: moving one unit per axis per tick toward a fixed target T from offset
(dx0, dy0), the driver is at T after exactly max(natAbs dx0, natAbs dy0) ticks,
is not at T at any earlier tick, never passes beyond either coordinate of T,
and each per-axis distance is non-increasing at every tick. -/
theorem spec_C7 (x0 y0 tx ty : Int) :
    (moveN ⟨x0, y0⟩ ⟨tx, ty⟩ (max (tx - x0).natAbs (ty - y0).natAbs) = ⟨tx, ty⟩) ∧
    (∀ k, k < max (tx - x0).natAbs (ty - y0).natAbs → moveN ⟨x0, y0⟩ ⟨tx, ty⟩ k ≠ ⟨tx, ty⟩) ∧
    (∀ k, min x0 tx ≤ (moveN ⟨x0, y0⟩ ⟨tx, ty⟩ k).x ∧
          (moveN ⟨x0, y0⟩ ⟨tx, ty⟩ k).x ≤ max x0 tx ∧
          min y0 ty ≤ (moveN ⟨x0, y0⟩ ⟨tx, ty⟩ k).y ∧
          (moveN ⟨x0, y0⟩ ⟨tx, ty⟩ k).y ≤ max y0 ty) ∧
    (∀ k, (tx - (moveN ⟨x0, y0⟩ ⟨tx, ty⟩ (k + 1)).x).natAbs ≤
            (tx - (moveN ⟨x0, y0⟩ ⟨tx, ty⟩ k).x).natAbs ∧
          (ty - (moveN ⟨x0, y0⟩ ⟨tx, ty⟩ (k + 1)).y).natAbs ≤
            (ty - (moveN ⟨x0, y0⟩ ⟨tx, ty⟩ k).y).natAbs) := by
  have hd : ∀ k, (tx - (moveN ⟨x0, y0⟩ ⟨tx, ty⟩ k).x).natAbs = (tx - x0).natAbs - k ∧
      (ty - (moveN ⟨x0, y0⟩ ⟨tx, ty⟩ k).y).natAbs = (ty - y0).natAbs - k := by
    intro k
    have h := moveN_dist ⟨x0, y0⟩ ⟨tx, ty⟩ k
    dsimp only at h
    exact h
  refine ⟨?_, ?_, ?_, ?_⟩
  · obtain ⟨hx, hy⟩ := hd (max (tx - x0).natAbs (ty - y0).natAbs)
    have hx0 : (moveN ⟨x0, y0⟩ ⟨tx, ty⟩ (max (tx - x0).natAbs (ty - y0).natAbs)).x = tx := by
      omega
    have hy0 : (moveN ⟨x0, y0⟩ ⟨tx, ty⟩ (max (tx - x0).natAbs (ty - y0).natAbs)).y = ty := by
      omega
    calc moveN ⟨x0, y0⟩ ⟨tx, ty⟩ (max (tx - x0).natAbs (ty - y0).natAbs)
        = ⟨(moveN ⟨x0, y0⟩ ⟨tx, ty⟩ (max (tx - x0).natAbs (ty - y0).natAbs)).x,
           (moveN ⟨x0, y0⟩ ⟨tx, ty⟩ (max (tx - x0).natAbs (ty - y0).natAbs)).y⟩ := rfl
      _ = ⟨tx, ty⟩ := by rw [hx0, hy0]
  · intro k hk h
    obtain ⟨hx, hy⟩ := hd k
    have hx' := congrArg Location.x h
    have hy' := congrArg Location.y h
    dsimp only at hx' hy'
    rw [hx'] at hx
    rw [hy'] at hy
    omega
  · intro k
    have h := moveN_between ⟨x0, y0⟩ ⟨tx, ty⟩ k
    dsimp only at h
    exact h
  · intro k
    obtain ⟨hx1, hy1⟩ := hd (k + 1)
    obtain ⟨hx2, hy2⟩ := hd k
    omega

/-- Witness for C7 at the concrete start (0,0) and target (3,4). -/
theorem spec_C7_witness : moveN ⟨0, 0⟩ ⟨3, 4⟩ (max ((3 : Int) - 0).natAbs ((4 : Int) - 0).natAbs) = ⟨3, 4⟩ :=
  (spec_C7 0 0 3 4).1

/-! ### Eligibility filter characterisation -/

theorem mem_find_available_drivers {drivers : List Driver} {pickup_location : Location}
    {exclude_drivers : List String} {cap : Nat} {p : String × Int} :
    p ∈ Helpers.find_available_drivers drivers pickup_location exclude_drivers cap ↔
      ∃ d, d ∈ drivers ∧ d.id = p.1 ∧ d.status = DriverStatus.idle ∧ p.1 ∉ exclude_drivers ∧
        d.pending_requests.length < cap ∧ p.2 = dist2 d.location pickup_location := by
  unfold Helpers.find_available_drivers
  rw [mem_sortByDist]
  constructor
  · intro h
    rcases List.mem_map.mp h with ⟨d, hd, hp⟩
    rcases List.mem_filter.mp hd with ⟨hmem, hcond⟩
    simp only [Bool.and_eq_true, decide_eq_true_eq] at hcond
    refine ⟨d, hmem, ?_, hcond.1.2, ?_, hcond.2, ?_⟩
    · rw [← hp]
    · rw [← hp]; exact hcond.1.1
    · rw [← hp]
  · rintro ⟨d, hd, hid, hst, hex, hlen, hdist⟩
    apply List.mem_map.mpr
    refine ⟨d, List.mem_filter.mpr ⟨hd, ?_⟩, ?_⟩
    · simp only [Bool.and_eq_true, decide_eq_true_eq]
      exact ⟨⟨hid ▸ hex, hst⟩, hlen⟩
    · cases p
      cases hid
      cases hdist
      rfl

theorem sorted_find_available_drivers (drivers : List Driver) (pickup_location : Location)
    (exclude_drivers : List String) (cap : Nat) :
    (Helpers.find_available_drivers drivers pickup_location exclude_drivers cap).Pairwise
      (fun a b => a.2 ≤ b.2) :=
  pairwise_sortByDist _

/-- C4: the eligibility filter returns exactly the IDLE, non-excluded drivers
with pending-offer count strictly below the cap, paired with their (squared)
distance to the pickup, sorted ascending by distance. -/
theorem spec_C4 (drivers : List Driver) (pickup_location : Location)
    (exclude_drivers : List String) (cap : Nat) :
    (Helpers.find_available_drivers drivers pickup_location exclude_drivers cap).Pairwise
      (fun a b => a.2 ≤ b.2) ∧
    ∀ p : String × Int,
      p ∈ Helpers.find_available_drivers drivers pickup_location exclude_drivers cap ↔
        ∃ d, d ∈ drivers ∧ d.id = p.1 ∧ d.status = DriverStatus.idle ∧
          p.1 ∉ exclude_drivers ∧ d.pending_requests.length < cap ∧
          p.2 = dist2 d.location pickup_location :=
  ⟨sorted_find_available_drivers drivers pickup_location exclude_drivers cap,
   fun _ => mem_find_available_drivers⟩

/-! ### The two copies of the routing core agree -/

theorem find_available_drivers_eq (s : Store) (pickup_location : Location)
    (exclude_drivers : List String) :
    Main.find_available_drivers s pickup_location exclude_drivers =
      Helpers.find_available_drivers s.drivers pickup_location exclude_drivers
        MAX_DRIVER_REQUESTS := rfl

theorem send_request_equiv (s : Store) (rid : String) :
    (Main.send_request_to_next_driver s rid).drivers
        = (Helpers.send_request_to_next_driver s.drivers s.ride_requests rid
            MAX_DRIVER_REQUESTS).1 ∧
    (Main.send_request_to_next_driver s rid).ride_requests
        = (Helpers.send_request_to_next_driver s.drivers s.ride_requests rid
            MAX_DRIVER_REQUESTS).2 ∧
    (Main.send_request_to_next_driver s rid).riders = s.riders ∧
    (Main.send_request_to_next_driver s rid).current_tick = s.current_tick := by
  unfold Main.send_request_to_next_driver Helpers.send_request_to_next_driver findRide
  cases h : keyedFind RideRequest.id rid s.ride_requests with
  | none => exact ⟨rfl, rfl, rfl, rfl⟩
  | some ride =>
    dsimp only
    rw [find_available_drivers_eq]
    cases havail : Helpers.find_available_drivers s.drivers ride.pickup_location
        ride.rejected_by MAX_DRIVER_REQUESTS with
    | nil => exact ⟨rfl, rfl, rfl, rfl⟩
    | cons p rest =>
      cases p
      dsimp only
      exact ⟨rfl, rfl, rfl, rfl⟩

/-- C10: the helpers.py copy of the routing core is behaviourally equivalent
to the main.py copy: the eligibility filter (at cap 5) returns the same
ranked list, and routing a request performs the same update to the driver
and request collections (riders and tick untouched). -/
theorem spec_C10 (s : Store) (pickup_location : Location)
    (exclude_drivers : List String) (rid : String) :
    Main.find_available_drivers s pickup_location exclude_drivers =
      Helpers.find_available_drivers s.drivers pickup_location exclude_drivers
        MAX_DRIVER_REQUESTS ∧
    (Main.send_request_to_next_driver s rid).drivers
        = (Helpers.send_request_to_next_driver s.drivers s.ride_requests rid
            MAX_DRIVER_REQUESTS).1 ∧
    (Main.send_request_to_next_driver s rid).ride_requests
        = (Helpers.send_request_to_next_driver s.drivers s.ride_requests rid
            MAX_DRIVER_REQUESTS).2 ∧
    (Main.send_request_to_next_driver s rid).riders = s.riders ∧
    (Main.send_request_to_next_driver s rid).current_tick = s.current_tick :=
  ⟨find_available_drivers_eq s pickup_location exclude_drivers, send_request_equiv s rid⟩

/-! ### Branch lemmas for main.py routing -/

theorem send_request_of_no_driver {s : Store} {rid : String} {ride : RideRequest}
    (h : findRide s rid = some ride)
    (havail : Main.find_available_drivers s ride.pickup_location ride.rejected_by = []) :
    Main.send_request_to_next_driver s rid =
      updateRide s rid (fun r => { r with status := "rejected", assigned_driver_id := none }) := by
  unfold Main.send_request_to_next_driver
  rw [h]
  dsimp only
  rw [havail]

theorem send_request_of_driver {s : Store} {rid : String} {ride : RideRequest}
    {nid : String} {dd : Int} {rest : List (String × Int)}
    (h : findRide s rid = some ride)
    (havail : Main.find_available_drivers s ride.pickup_location ride.rejected_by
      = (nid, dd) :: rest) :
    Main.send_request_to_next_driver s rid =
      updateRide
        (updateDriver s nid
          (fun d => { d with pending_requests := d.pending_requests ++ [rid] }))
        rid (fun r => { r with assigned_driver_id := some nid }) := by
  unfold Main.send_request_to_next_driver
  rw [h]
  dsimp only
  rw [havail]

/-! ### End-to-end scenario (one driver at (0,0), rider (3,0) → (3,4)) -/

def c8Stage1 : Res := Main.create_driver emptyStore "d1" ⟨0, 0⟩

def c8Stage2 : Res := Main.create_rider c8Stage1.store "r1" ⟨3, 0⟩ ⟨3, 4⟩

def c8Stage3 : Res := Main.request_ride c8Stage2.store "r1" "ride1"

def c8Stage4 : Res := Main.driver_respond_to_ride c8Stage3.store "ride1" "accept"

def c8Ticks : Nat → Store
  | 0 => c8Stage4.store
  | k + 1 => (Main.tick (c8Ticks k)).store

/-- C8: in the concrete one-driver scenario, the ride request is assigned to
that driver as PENDING; accepting makes it ACCEPTED with the driver
GOING_TO_PICKUP; after 3 ticks the driver is at (3,0), DRIVING_TO_DEST, the
rider IN_TRANSIT; after 4 more ticks the driver is at (3,4) and IDLE, the
request COMPLETED, and the rider COMPLETED. -/
theorem spec_C8 :
    c8Stage1.isOk = true ∧ c8Stage2.isOk = true ∧ c8Stage3.isOk = true ∧
    findRide c8Stage3.store "ride1" =
      some { id := "ride1", rider_id := "r1", pickup_location := ⟨3, 0⟩,
             dropoff_location := ⟨3, 4⟩, status := "pending",
             assigned_driver_id := some "d1", rejected_by := [] } ∧
    c8Stage4.isOk = true ∧
    findRide c8Stage4.store "ride1" =
      some { id := "ride1", rider_id := "r1", pickup_location := ⟨3, 0⟩,
             dropoff_location := ⟨3, 4⟩, status := "accepted",
             assigned_driver_id := some "d1", rejected_by := [] } ∧
    findDriver c8Stage4.store "d1" =
      some { id := "d1", location := ⟨0, 0⟩, status := .going_to_pickup,
             pending_requests := [], current_ride_id := some "ride1" } ∧
    findDriver (c8Ticks 3) "d1" =
      some { id := "d1", location := ⟨3, 0⟩, status := .driving_to_dest,
             pending_requests := [], current_ride_id := some "ride1" } ∧
    findRider (c8Ticks 3) "r1" =
      some { id := "r1", pickup_location := ⟨3, 0⟩, dropoff_location := ⟨3, 4⟩,
             status := .in_transit, current_ride_id := some "ride1" } ∧
    findDriver (c8Ticks 7) "d1" =
      some { id := "d1", location := ⟨3, 4⟩, status := .idle,
             pending_requests := [], current_ride_id := none } ∧
    findRide (c8Ticks 7) "ride1" =
      some { id := "ride1", rider_id := "r1", pickup_location := ⟨3, 0⟩,
             dropoff_location := ⟨3, 4⟩, status := "completed",
             assigned_driver_id := some "d1", rejected_by := [] } ∧
    findRider (c8Ticks 7) "r1" =
      some { id := "r1", pickup_location := ⟨3, 0⟩, dropoff_location := ⟨3, 4⟩,
             status := .completed, current_ride_id := none } := by
  decide

/-! ### Validation errors of driver_respond_to_ride -/

/-- The error conditions of `driver_respond_to_ride` that the source checks
before performing any mutation. -/
def respondErrCond (s : Store) (rid action : String) : Prop :=
  (Main.strLower action ≠ "accept" ∧ Main.strLower action ≠ "reject")
  ∨ findRide s rid = none
  ∨ (∃ r, findRide s rid = some r ∧ r.status ≠ "pending")
  ∨ (∃ r, findRide s rid = some r ∧ r.assigned_driver_id = none)
  ∨ (∃ r did, findRide s rid = some r ∧ r.assigned_driver_id = some did ∧
      findDriver s did = none)
  ∨ (∃ r did d, findRide s rid = some r ∧ r.assigned_driver_id = some did ∧
      findDriver s did = some d ∧ Main.strLower action = "accept" ∧
      d.status ≠ DriverStatus.idle)

theorem respond_err_unchanged (s : Store) (rid action : String)
    (h : respondErrCond s rid action) :
    Main.driver_respond_to_ride s rid action = Res.failure s := by
  unfold Main.driver_respond_to_ride
  rcases h with ⟨h1, h2⟩ | h0 | ⟨r, hr, hs⟩ | ⟨r, hr, ha⟩ | ⟨r, did, hr, ha, hd⟩ |
    ⟨r, did, d, hr, ha, hd, hacc, hst⟩
  · cases hfr : findRide s rid with
    | none => rfl
    | some ride =>
      dsimp only
      by_cases hp : ride.status = "pending"
      · rw [if_pos hp]
        cases ha2 : ride.assigned_driver_id with
        | none => rfl
        | some did =>
          dsimp only
          cases hfd : findDriver s did with
          | none => rfl
          | some d =>
            dsimp only
            rw [if_neg h1, if_neg h2]
      · rw [if_neg hp]
  · rw [h0]
  · rw [hr]
    dsimp only
    rw [if_neg hs]
  · rw [hr]
    dsimp only
    by_cases hp : r.status = "pending"
    · rw [if_pos hp, ha]
    · rw [if_neg hp]
  · rw [hr]
    dsimp only
    by_cases hp : r.status = "pending"
    · rw [if_pos hp, ha]
      dsimp only
      rw [hd]
    · rw [if_neg hp]
  · rw [hr]
    dsimp only
    by_cases hp : r.status = "pending"
    · rw [if_pos hp, ha]
      dsimp only
      rw [hd]
      dsimp only
      rw [if_pos hacc, if_neg hst]
    · rw [if_neg hp]

/-- C6: responding to a ride fails with a validation or not-found error and
mutates no state whenever the action string is neither accept nor reject, or
the ride is unknown or not PENDING, or its assigned driver is missing or not
in the driver store, or the action is accept and the assigned driver is not
IDLE. -/
theorem spec_C6 (s : Store) (rid action : String) (h : respondErrCond s rid action) :
    Main.driver_respond_to_ride s rid action = Res.failure s :=
  respond_err_unchanged s rid action h

/-- Witness for C6: responding to an unknown ride in the empty store. -/
theorem spec_C6_witness :
    Main.driver_respond_to_ride emptyStore "x" "accept" = Res.failure emptyStore :=
  spec_C6 emptyStore "x" "accept" (Or.inr (Or.inl rfl))

/-! ### Atomicity of the core operations -/

theorem tickStep_current_tick (s : Store) (rid : String) :
    (Main.tickStep s rid).store.current_tick = s.current_tick := by
  unfold Main.tickStep
  cases findRide s rid with
  | none => rfl
  | some ride =>
    dsimp only
    (repeat' split) <;> rfl

theorem tickLoop_current_tick (ids : List String) (st : Store) :
    (Main.tickLoop ids st).store.current_tick = st.current_tick := by
  induction ids generalizing st with
  | nil => rfl
  | cons rid rest ih =>
    unfold Main.tickLoop
    cases hstep : Main.tickStep st rid with
    | failure s' =>
      have := tickStep_current_tick st rid
      rw [hstep] at this
      exact this
    | success s' =>
      have h1 := tickStep_current_tick st rid
      rw [hstep] at h1
      dsimp only
      rw [ih s']
      exact h1

theorem tick_current_tick (s : Store) :
    (Main.tick s).store.current_tick = s.current_tick + 1 := by
  unfold Main.tick
  rw [tickLoop_current_tick]

/-- C3 (amended): the upfront validation errors of every core operation
leave the store exactly as it was, but `advance_tick` is not all-or-nothing:
it increments the tick counter before processing, so a tick that terminates
with an error (dangling driver or rider of an ACCEPTED request) leaves the
counter incremented (with any rides processed before the failure mutated). -/
theorem spec_C3 :
    (∀ s rid action, respondErrCond s rid action →
      Main.driver_respond_to_ride s rid action = Res.failure s) ∧
    (∀ s did location s', Main.create_driver s did location = Res.failure s' → s' = s) ∧
    (∀ s did s', Main.delete_driver s did = Res.failure s' → s' = s) ∧
    (∀ s rid p q s', Main.create_rider s rid p q = Res.failure s' → s' = s) ∧
    (∀ s rid s', Main.delete_rider s rid = Res.failure s' → s' = s) ∧
    (∀ s rider_id ride_id s', Main.request_ride s rider_id ride_id = Res.failure s' → s' = s) ∧
    (∀ s s', Main.tick s = Res.failure s' → s'.current_tick = s.current_tick + 1) := by
  refine ⟨respond_err_unchanged, ?_, ?_, ?_, ?_, ?_, ?_⟩
  · intro s did location s' h
    unfold Main.create_driver at h
    split at h
    · cases h; rfl
    · exact Res.noConfusion h
  · intro s did s' h
    unfold Main.delete_driver at h
    split at h
    · exact Res.noConfusion h
    · cases h; rfl
  · intro s rid p q s' h
    unfold Main.create_rider at h
    split at h
    · cases h; rfl
    · split at h
      · cases h; rfl
      · split at h
        · cases h; rfl
        · exact Res.noConfusion h
  · intro s rid s' h
    unfold Main.delete_rider at h
    split at h
    · exact Res.noConfusion h
    · cases h; rfl
  · intro s rider_id ride_id s' h
    unfold Main.request_ride at h
    cases hr : findRider s rider_id with
    | none =>
      rw [hr] at h
      cases h; rfl
    | some rider =>
      rw [hr] at h
      dsimp only at h
      rcases havail : Main.find_available_drivers s rider.pickup_location [] with _ | ⟨⟨nid, dd⟩, rest⟩
      · rw [havail] at h
        exact Res.noConfusion h
      · rw [havail] at h
        exact Res.noConfusion h
  · intro s s' h
    have := tick_current_tick s
    rw [h] at this
    exact this

/-- Witness for C3 at concrete inputs: a validation error of respond leaves
the empty store unchanged, and a tick that fails on a dangling driver
reports the incremented counter. -/
theorem spec_C3_witness :
    Main.driver_respond_to_ride emptyStore "x" "reject" = Res.failure emptyStore :=
  spec_C3.1 emptyStore "x" "reject" (Or.inr (Or.inl rfl))

/-- State with an ACCEPTED request whose assigned driver has been deleted. -/
def c3Store : Store :=
  { drivers := [],
    riders := [⟨"r1", ⟨3, 0⟩, ⟨3, 4⟩, .assigned, some "ride1"⟩],
    ride_requests := [⟨"ride1", "r1", ⟨3, 0⟩, ⟨3, 4⟩, "accepted", some "dGone", []⟩],
    current_tick := 0 }

/-- Counterexample to C3 as stated: `advance_tick` on a state where an
ACCEPTED request's assigned driver has been deleted terminates with an error,
yet the store is not as it was before (the tick counter moved from 0 to 1). -/
theorem spec_C3_cex :
    (Main.tick c3Store).isOk = false ∧ (Main.tick c3Store).store ≠ c3Store := by
  decide

/-! ### The assigned-driver/status invariant -/

/-- The invariant exactly as claimed: assigned driver set iff the status is
PENDING or ACCEPTED. -/
def AssignedIffPendingOrAccepted (s : Store) : Prop :=
  ∀ r ∈ s.ride_requests,
    (r.assigned_driver_id ≠ none ↔ (r.status = "pending" ∨ r.status = "accepted"))

/-- The invariant that actually holds: assigned driver set iff the status is
PENDING, ACCEPTED or COMPLETED (completion never clears the reference). -/
def AssignedIffActive (s : Store) : Prop :=
  ∀ r ∈ s.ride_requests,
    (r.assigned_driver_id ≠ none ↔
      (r.status = "pending" ∨ r.status = "accepted" ∨ r.status = "completed"))

/-- State one tick before a ride completes; it satisfies the claimed
invariant. -/
def c1Store : Store :=
  { drivers := [⟨"d1", ⟨3, 3⟩, .driving_to_dest, [], some "ride1"⟩],
    riders := [⟨"r1", ⟨3, 0⟩, ⟨3, 4⟩, .in_transit, some "ride1"⟩],
    ride_requests := [⟨"ride1", "r1", ⟨3, 0⟩, ⟨3, 4⟩, "accepted", some "d1", []⟩],
    current_tick := 6 }

/-- Counterexample to C1 as stated: a state satisfying the claimed invariant
in which one core operation (a successful `advance_tick` that completes the
ride) produces a COMPLETED request that still has its assigned driver set. -/
theorem spec_C1_cex :
    AssignedIffPendingOrAccepted c1Store ∧ (Main.tick c1Store).isOk = true ∧
    findRide (Main.tick c1Store).store "ride1" =
      some { id := "ride1", rider_id := "r1", pickup_location := ⟨3, 0⟩,
             dropoff_location := ⟨3, 4⟩, status := "completed",
             assigned_driver_id := some "d1", rejected_by := [] } ∧
    ¬ AssignedIffPendingOrAccepted (Main.tick c1Store).store := by
  refine ⟨?_, by decide, by decide, ?_⟩
  · unfold AssignedIffPendingOrAccepted
    decide
  intro h
  have := h { id := "ride1", rider_id := "r1", pickup_location := ⟨3, 0⟩,
              dropoff_location := ⟨3, 4⟩, status := "completed",
              assigned_driver_id := some "d1", rejected_by := [] } (by decide)
  simp at this

/-! ### Update/lookup preservation lemmas at the store level -/

theorem findRide_updateDriver (s : Store) (i : String) (f : Driver → Driver) (j : String) :
    findRide (updateDriver s i f) j = findRide s j := rfl

theorem findRide_updateRider (s : Store) (i : String) (f : Rider → Rider) (j : String) :
    findRide (updateRider s i f) j = findRide s j := rfl

theorem findRide_updateRide_ne {s : Store} {i j : String} {f : RideRequest → RideRequest}
    (hf : ∀ r, r.id = i → (f r).id = i) (hji : j ≠ i) :
    findRide (updateRide s i f) j = findRide s j :=
  keyedFind_upd_ne hf hji s.ride_requests

theorem findRide_updateRide_self {s : Store} {i : String} {f : RideRequest → RideRequest}
    (hf : ∀ r, r.id = i → (f r).id = i) :
    findRide (updateRide s i f) i = (findRide s i).map f :=
  keyedFind_upd_self hf s.ride_requests

theorem findDriver_updateDriver_ne {s : Store} {i j : String} {f : Driver → Driver}
    (hf : ∀ d, d.id = i → (f d).id = i) (hji : j ≠ i) :
    findDriver (updateDriver s i f) j = findDriver s j :=
  keyedFind_upd_ne hf hji s.drivers

theorem findDriver_updateDriver_self {s : Store} {i : String} {f : Driver → Driver}
    (hf : ∀ d, d.id = i → (f d).id = i) :
    findDriver (updateDriver s i f) i = (findDriver s i).map f :=
  keyedFind_upd_self hf s.drivers

/-- No driver record carrying the given id is IDLE (used to show the routing
never hands a new offer to the accepting driver). -/
def noIdleWithId (s : Store) (did : String) : Prop :=
  ∀ d ∈ s.drivers, d.id = did → d.status ≠ DriverStatus.idle

theorem noIdle_updateDriver {s : Store} {did i : String} {f : Driver → Driver}
    (h : noIdleWithId s did)
    (hid : ∀ d, (f d).id = d.id) (hst : ∀ d, (f d).status = d.status) :
    noIdleWithId (updateDriver s i f) did := by
  intro d' hd' hidq
  rcases List.mem_map.mp hd' with ⟨d, hd, hde⟩
  by_cases hk : d.id = i
  · rw [if_pos hk] at hde
    rw [← hde, hst d]
    rw [← hde, hid d] at hidq
    exact h d hd hidq
  · rw [if_neg hk] at hde
    rw [← hde] at hidq ⊢
    exact h d hd hidq

theorem noIdle_updateDriver_notIdle {s : Store} {did : String} {f : Driver → Driver}
    (hst : ∀ d, (f d).status ≠ DriverStatus.idle) :
    noIdleWithId (updateDriver s did f) did := by
  intro d' hd' hidq
  rcases List.mem_map.mp hd' with ⟨d, hd, hde⟩
  by_cases hk : d.id = did
  · rw [if_pos hk] at hde
    rw [← hde]
    exact hst d
  · rw [if_neg hk] at hde
    rw [← hde] at hidq
    exact absurd hidq hk

/-- The head of the availability list is an IDLE driver of the store, hence
distinct from any id that is never idle. -/
theorem find_available_head_ne {s : Store} {pickup : Location} {excl : List String}
    {nid : String} {dd : Int} {rest : List (String × Int)} {did : String}
    (havail : Main.find_available_drivers s pickup excl = (nid, dd) :: rest)
    (h : noIdleWithId s did) : nid ≠ did := by
  have hmem : ((nid, dd) : String × Int) ∈ Main.find_available_drivers s pickup excl := by
    rw [havail]
    exact List.mem_cons_self _ _
  rw [find_available_drivers_eq] at hmem
  rcases mem_find_available_drivers.mp hmem with ⟨d, hd, hid, hst, -, -, -⟩
  intro hne
  exact h d hd (hne ▸ hid) hst

/-! ### send_request_to_next_driver preservation lemmas -/

theorem send_request_findRide_ne {s : Store} {rid j : String} (hj : j ≠ rid) :
    findRide (Main.send_request_to_next_driver s rid) j = findRide s j := by
  unfold Main.send_request_to_next_driver
  cases h : findRide s rid with
  | none => rfl
  | some ride =>
    dsimp only
    cases havail : Main.find_available_drivers s ride.pickup_location ride.rejected_by with
    | nil => exact findRide_updateRide_ne (by intro r hr; exact hr) hj
    | cons p rest =>
      cases p
      dsimp only
      exact findRide_updateRide_ne (by intro r hr; exact hr) hj

theorem send_request_findRide_isSome (s : Store) (rid j : String) :
    (findRide (Main.send_request_to_next_driver s rid) j).isSome = (findRide s j).isSome := by
  unfold Main.send_request_to_next_driver
  cases h : findRide s rid with
  | none => rfl
  | some ride =>
    dsimp only
    cases havail : Main.find_available_drivers s ride.pickup_location ride.rejected_by with
    | nil =>
      dsimp only
      exact keyedFind_isSome_upd (by intro r hr; exact hr) s.ride_requests
    | cons p rest =>
      cases p
      dsimp only
      exact keyedFind_isSome_upd (by intro r hr; exact hr) s.ride_requests

theorem send_request_riders (s : Store) (rid : String) :
    (Main.send_request_to_next_driver s rid).riders = s.riders :=
  (send_request_equiv s rid).2.2.1

theorem send_request_noIdle {s : Store} {rid did : String} (h : noIdleWithId s did) :
    noIdleWithId (Main.send_request_to_next_driver s rid) did := by
  unfold Main.send_request_to_next_driver
  cases hr : findRide s rid with
  | none => exact h
  | some ride =>
    dsimp only
    cases havail : Main.find_available_drivers s ride.pickup_location ride.rejected_by with
    | nil => exact h
    | cons p rest =>
      cases p
      dsimp only
      exact noIdle_updateDriver h (fun d => rfl) (fun d => rfl)

theorem send_request_findDriver_did {s : Store} {rid did : String} (h : noIdleWithId s did) :
    findDriver (Main.send_request_to_next_driver s rid) did = findDriver s did := by
  unfold Main.send_request_to_next_driver
  cases hr : findRide s rid with
  | none => rfl
  | some ride =>
    dsimp only
    cases havail : Main.find_available_drivers s ride.pickup_location ride.rejected_by with
    | nil => rfl
    | cons p rest =>
      obtain ⟨nid, dd⟩ := p
      dsimp only
      have hne : did ≠ nid := Ne.symm (find_available_head_ne havail h)
      exact findDriver_updateDriver_ne (by intro d hd; exact hd) hne

theorem findRide_updateRide_isSome {s : Store} {i : String} {f : RideRequest → RideRequest}
    (hf : ∀ r, r.id = i → (f r).id = i) (j : String) :
    (findRide (updateRide s i f) j).isSome = (findRide s j).isSome :=
  keyedFind_isSome_upd hf s.ride_requests

/-! ### Cascade (fan-out rejection) lemmas -/

theorem cascade_findRide_not_mem (did : String) (snap : List String) :
    ∀ (st : Store) (j : String), j ∉ snap →
      findRide (Main.cascade did snap st).store j = findRide st j := by
  induction snap with
  | nil => intro st j hj; rfl
  | cons q rest ih =>
    intro st j hj
    have hjq : j ≠ q := fun h => hj (h ▸ List.mem_cons_self q rest)
    have hjrest : j ∉ rest := fun h => hj (List.mem_cons_of_mem q h)
    unfold Main.cascade
    cases hq : findRide st q with
    | none => rfl
    | some rq =>
      dsimp only
      rw [ih _ _ hjrest, send_request_findRide_ne hjq]
      exact findRide_updateRide_ne (by intro r hr; exact hr) hjq

theorem cascade_riders (did : String) (snap : List String) :
    ∀ st : Store, (Main.cascade did snap st).store.riders = st.riders := by
  induction snap with
  | nil => intro st; rfl
  | cons q rest ih =>
    intro st
    unfold Main.cascade
    cases hq : findRide st q with
    | none => rfl
    | some rq =>
      dsimp only
      rw [ih _, send_request_riders]
      rfl

/-- What holds for a request after the cascade has bumped it: the accepting
driver is recorded in its rejected_by, and it is either terminally rejected
or reassigned to a different driver. -/
def cascadeDone (did : String) (st : Store) (q : String) : Prop :=
  ∃ rq, findRide st q = some rq ∧ did ∈ rq.rejected_by ∧
    (rq.status = "rejected" ∨ ∃ d2, rq.assigned_driver_id = some d2 ∧ d2 ≠ did)

theorem cascade_step_done {st : Store} {q did : String} {rq : RideRequest}
    (hq : findRide st q = some rq) (h1 : noIdleWithId st did) :
    cascadeDone did (Main.send_request_to_next_driver
      (updateRide st q (fun r =>
        { r with rejected_by := r.rejected_by ++ [did], assigned_driver_id := none })) q) q := by
  set s1 := updateRide st q (fun r =>
    { r with rejected_by := r.rejected_by ++ [did], assigned_driver_id := none }) with hs1
  have hq1 : findRide s1 q
      = some { rq with rejected_by := rq.rejected_by ++ [did], assigned_driver_id := none } := by
    rw [hs1, findRide_updateRide_self (by intro r hr; exact hr), hq]
    rfl
  set rq1 : RideRequest :=
    { rq with rejected_by := rq.rejected_by ++ [did], assigned_driver_id := none } with hrq1
  have hmemdid : did ∈ rq1.rejected_by := by
    rw [hrq1]
    exact List.mem_append_right _ (List.mem_singleton.mpr rfl)
  cases havail : Main.find_available_drivers s1 rq1.pickup_location rq1.rejected_by with
  | nil =>
    rw [send_request_of_no_driver hq1 havail]
    refine ⟨{ rq1 with status := "rejected", assigned_driver_id := none }, ?_, hmemdid,
      Or.inl rfl⟩
    rw [findRide_updateRide_self (by intro r hr; exact hr), hq1]
    rfl
  | cons p rest =>
    obtain ⟨nid, dd⟩ := p
    have hne : nid ≠ did := find_available_head_ne havail h1
    rw [send_request_of_driver hq1 havail]
    refine ⟨{ rq1 with assigned_driver_id := some nid }, ?_, hmemdid, Or.inr ⟨nid, rfl, hne⟩⟩
    have hmid : findRide (updateDriver s1 nid
        (fun d => { d with pending_requests := d.pending_requests ++ [q] })) q
        = some rq1 := hq1
    rw [findRide_updateRide_self (by intro r hr; exact hr), hmid]
    rfl

theorem cascade_spec (did : String) (snap : List String) :
    ∀ st : Store, snap.Nodup → noIdleWithId st did →
      (∀ q ∈ snap, (findRide st q).isSome) →
      ∃ s3, Main.cascade did snap st = Res.success s3 ∧
        (∀ q ∈ snap, cascadeDone did s3 q) ∧
        (∀ j, j ∉ snap → findRide s3 j = findRide st j) ∧
        s3.riders = st.riders ∧
        findDriver s3 did = findDriver st did ∧
        noIdleWithId s3 did := by
  induction snap with
  | nil =>
    intro st _ h1 _
    exact ⟨st, rfl, fun q hq => absurd hq (List.not_mem_nil q), fun j _ => rfl, rfl, rfl, h1⟩
  | cons q rest ih =>
    intro st hnd h1 hsome
    have hq' := hsome q (List.mem_cons_self q rest)
    obtain ⟨rq, hq⟩ : ∃ rq, findRide st q = some rq := by
      cases h : findRide st q
      · rw [h] at hq'; simp at hq'
      · exact ⟨_, rfl⟩
    have hqrest : q ∉ rest := (List.nodup_cons.mp hnd).1
    have hndrest := (List.nodup_cons.mp hnd).2
    have h1s1 : noIdleWithId (updateRide st q (fun r =>
        { r with rejected_by := r.rejected_by ++ [did], assigned_driver_id := none })) did := h1
    have h1s2 : noIdleWithId (Main.send_request_to_next_driver
        (updateRide st q (fun r =>
          { r with rejected_by := r.rejected_by ++ [did], assigned_driver_id := none })) q)
        did := send_request_noIdle h1s1
    have hsome2 : ∀ q' ∈ rest, (findRide (Main.send_request_to_next_driver
        (updateRide st q (fun r =>
          { r with rejected_by := r.rejected_by ++ [did], assigned_driver_id := none })) q)
        q').isSome := by
      intro q' hq'r
      rw [send_request_findRide_isSome,
        findRide_updateRide_isSome (by intro r hr; exact hr)]
      exact hsome q' (List.mem_cons_of_mem q hq'r)
    obtain ⟨s3, hc, hdone, hpres, hriders, hdrv, hnoidle⟩ :=
      ih (Main.send_request_to_next_driver
        (updateRide st q (fun r =>
          { r with rejected_by := r.rejected_by ++ [did], assigned_driver_id := none })) q)
        hndrest h1s2 hsome2
    unfold Main.cascade
    rw [hq]
    dsimp only
    refine ⟨s3, hc, ?_, ?_, ?_, ?_, hnoidle⟩
    · intro q' hq'mem
      rcases List.mem_cons.mp hq'mem with h | hmem
      · subst h
        obtain ⟨rr, hrr, hmemr, hor⟩ := cascade_step_done hq h1
        exact ⟨rr, (hpres q' hqrest).trans hrr, hmemr, hor⟩
      · exact hdone q' hmem
    · intro j hj
      have hjq : j ≠ q := fun h => hj (h ▸ List.mem_cons_self q rest)
      have hjrest : j ∉ rest := fun h => hj (List.mem_cons_of_mem q h)
      rw [hpres j hjrest, send_request_findRide_ne hjq]
      exact findRide_updateRide_ne (by intro r hr; exact hr) hjq
    · rw [hriders, send_request_riders]
      rfl
    · rw [hdrv, send_request_findDriver_did h1s1]
      rfl

theorem findRider_updateRider_self {s : Store} {i : String} {f : Rider → Rider}
    (hf : ∀ r, r.id = i → (f r).id = i) :
    findRider (updateRider s i f) i = (findRider s i).map f :=
  keyedFind_upd_self hf s.riders

/-! ### The accept path -/

theorem acceptPath_spec {s : Store} {rid did : String} {ride : RideRequest} {driver : Driver}
    (hr : findRide s rid = some ride)
    (ha : ride.assigned_driver_id = some did)
    (hd : findDriver s did = some driver)
    (hidle : driver.status = DriverStatus.idle)
    (hrider : (findRider s ride.rider_id).isSome)
    (hq : ∀ q ∈ driver.pending_requests, (findRide s q).isSome)
    (hnd : driver.pending_requests.Nodup) :
    ∃ s', Main.acceptPath s rid did ride driver = Res.success s' ∧
      findRide s' rid = some { ride with status := "accepted" } ∧
      (∃ d', findDriver s' did = some d' ∧ d'.status = DriverStatus.going_to_pickup ∧
        d'.current_ride_id = some rid ∧ d'.pending_requests = []) ∧
      (∃ w, findRider s' ride.rider_id = some w ∧ w.status = RiderStatus.assigned ∧
        w.current_ride_id = some rid) ∧
      (∀ q ∈ driver.pending_requests, q ≠ rid → cascadeDone did s' q) := by
  set s1 := updateRide s rid (fun r => { r with status := "accepted" }) with hs1
  set s2 := updateDriver s1 did (fun d =>
    { d with status := .going_to_pickup, current_ride_id := some rid,
             pending_requests := d.pending_requests.erase rid }) with hs2
  have hr2 : findRide s2 rid = some { ride with status := "accepted" } := by
    rw [show findRide s2 rid = findRide s1 rid from rfl, hs1,
      findRide_updateRide_self (by intro r h; exact h), hr]
    rfl
  have hnoidle2 : noIdleWithId s2 did := by
    rw [hs2]
    exact noIdle_updateDriver_notIdle (fun d => by intro h; exact DriverStatus.noConfusion h)
  have hnds : (driver.pending_requests.erase rid).Nodup := hnd.erase rid
  have hrids : rid ∉ driver.pending_requests.erase rid := by
    intro h
    exact absurd ((hnd.mem_erase_iff).mp h).1 (by simp)
  have hsome2 : ∀ q ∈ driver.pending_requests.erase rid, (findRide s2 q).isSome := by
    intro q hqe
    rw [show findRide s2 q = findRide s1 q from rfl, hs1]
    rw [findRide_updateRide_isSome (by intro r h; exact h)]
    exact hq q (List.mem_of_mem_erase hqe)
  obtain ⟨s3, hc, hdone, hpres, hriders3, hdrv3, -⟩ :=
    cascade_spec did (driver.pending_requests.erase rid) s2 hnds hnoidle2 hsome2
  obtain ⟨w, hw⟩ : ∃ w, findRider s ride.rider_id = some w := by
    cases h : findRider s ride.rider_id
    · rw [h] at hrider; simp at hrider
    · exact ⟨_, rfl⟩
  have hrider4 : findRider (updateDriver s3 did (fun d => { d with pending_requests := [] }))
      ride.rider_id = some w := by
    rw [show findRider (updateDriver s3 did (fun d => { d with pending_requests := [] }))
        ride.rider_id = keyedFind Rider.id ride.rider_id s3.riders from rfl, hriders3]
    exact hw
  unfold Main.acceptPath
  dsimp only
  rw [← hs1, ← hs2, hc]
  dsimp only
  rw [hrider4]
  dsimp only
  refine ⟨_, rfl, ?_, ?_, ?_, ?_⟩
  · show findRide s3 rid = some { ride with status := "accepted" }
    rw [hpres rid hrids]
    exact hr2
  · have hfind : findDriver (updateDriver s3 did (fun d => { d with pending_requests := [] })) did = some { driver with status := DriverStatus.going_to_pickup, current_ride_id := some rid, pending_requests := ([] : List String) } := by
      rw [findDriver_updateDriver_self (by intro d h; exact h), hdrv3]
      rw [show findDriver s2 did = (findDriver s1 did).map (fun d => { d with status := DriverStatus.going_to_pickup, current_ride_id := some rid, pending_requests := d.pending_requests.erase rid }) from findDriver_updateDriver_self (by intro d h; exact h)]
      rw [show findDriver s1 did = findDriver s did from rfl, hd]
      rfl
    exact ⟨_, hfind, rfl, rfl, rfl⟩
  · refine ⟨{ w with status := RiderStatus.assigned, current_ride_id := some rid }, ?_, rfl, rfl⟩
    have hwid : w.id = ride.rider_id := keyedFind_key hw
    rw [findRider_updateRider_self (by intro r h; exact hwid), hrider4]
    rfl
  · intro q hqmem hqrid
    have hqs : q ∈ driver.pending_requests.erase rid :=
      (hnd.mem_erase_iff).mpr ⟨hqrid, hqmem⟩
    exact hdone q hqs

/-- C2: if driver D accepts a PENDING request R while IDLE, then R is
ACCEPTED and still assigned to D, D is GOING_TO_PICKUP on R with an empty
pending queue, the owning rider is ASSIGNED on R, and every other request
previously in D's queue has D in its rejected_by and is either reassigned to
a driver distinct from D or terminally REJECTED.  (The hypotheses say the
store is well-formed: the queued ride ids and the owning rider exist and the
queue has no duplicates, which all reachable stores satisfy.) -/
theorem spec_C2 (s : Store) (rid did : String) (ride : RideRequest) (driver : Driver)
    (hr : findRide s rid = some ride)
    (hst : ride.status = "pending")
    (ha : ride.assigned_driver_id = some did)
    (hd : findDriver s did = some driver)
    (hidle : driver.status = DriverStatus.idle)
    (hrider : (findRider s ride.rider_id).isSome)
    (hq : ∀ q ∈ driver.pending_requests, (findRide s q).isSome)
    (hnd : driver.pending_requests.Nodup) :
    ∃ s', Main.driver_respond_to_ride s rid "accept" = Res.success s' ∧
      (∃ r', findRide s' rid = some r' ∧ r'.status = "accepted" ∧
        r'.assigned_driver_id = some did) ∧
      (∃ d', findDriver s' did = some d' ∧ d'.status = DriverStatus.going_to_pickup ∧
        d'.current_ride_id = some rid ∧ d'.pending_requests = []) ∧
      (∃ w, findRider s' ride.rider_id = some w ∧ w.status = RiderStatus.assigned ∧
        w.current_ride_id = some rid) ∧
      (∀ q ∈ driver.pending_requests, q ≠ rid → cascadeDone did s' q) := by
  have hred : Main.driver_respond_to_ride s rid "accept"
      = Main.acceptPath s rid did ride driver := by
    unfold Main.driver_respond_to_ride
    rw [hr]
    dsimp only
    rw [if_pos hst, ha]
    dsimp only
    rw [hd]
    dsimp only
    rw [if_pos (show Main.strLower "accept" = "accept" from rfl), if_pos hidle]
  rw [hred]
  obtain ⟨s', hok, hride, hdrv, hrid, hcasc⟩ :=
    acceptPath_spec hr ha hd hidle hrider hq hnd
  exact ⟨s', hok, ⟨{ ride with status := "accepted" }, hride, rfl, ha⟩, hdrv, hrid, hcasc⟩

/-- Concrete store for the C2 witness: driver d1 is IDLE with two pending
offers; d2 is IDLE and free, so the bumped offer lands on d2. -/
def c2Store : Store :=
  { drivers := [⟨"d1", ⟨0, 0⟩, .idle, ["ride1", "ride2"], none⟩,
                ⟨"d2", ⟨5, 5⟩, .idle, [], none⟩],
    riders := [⟨"r1", ⟨1, 0⟩, ⟨2, 0⟩, .waiting, none⟩,
               ⟨"r2", ⟨0, 1⟩, ⟨0, 2⟩, .waiting, none⟩],
    ride_requests := [⟨"ride1", "r1", ⟨1, 0⟩, ⟨2, 0⟩, "pending", some "d1", []⟩,
                      ⟨"ride2", "r2", ⟨0, 1⟩, ⟨0, 2⟩, "pending", some "d1", []⟩],
    current_tick := 0 }

/-- Witness for C2: driver d1 accepts ride1 in `c2Store`. -/
theorem spec_C2_witness :
    ∃ s', Main.driver_respond_to_ride c2Store "ride1" "accept" = Res.success s' ∧
      (∃ r', findRide s' "ride1" = some r' ∧ r'.status = "accepted" ∧
        r'.assigned_driver_id = some "d1") ∧
      (∃ d', findDriver s' "d1" = some d' ∧ d'.status = DriverStatus.going_to_pickup ∧
        d'.current_ride_id = some "ride1" ∧ d'.pending_requests = []) ∧
      (∃ w, findRider s' "r1" = some w ∧ w.status = RiderStatus.assigned ∧
        w.current_ride_id = some "ride1") ∧
      (∀ q ∈ (["ride1", "ride2"] : List String), q ≠ "ride1" → cascadeDone "d1" s' q) :=
  spec_C2 c2Store "ride1" "d1"
    ⟨"ride1", "r1", ⟨1, 0⟩, ⟨2, 0⟩, "pending", some "d1", []⟩
    ⟨"d1", ⟨0, 0⟩, .idle, ["ride1", "ride2"], none⟩
    (by decide) (by decide) (by decide) (by decide) (by decide) (by decide)
    (by decide) (by decide)

/-! ### A REJECTED request is terminal -/

theorem acceptPath_findRide_ne {s : Store} {rid did j : String} {ride : RideRequest}
    {driver : Driver} (hj : j ≠ rid) (hjq : j ∉ driver.pending_requests.erase rid) :
    findRide (Main.acceptPath s rid did ride driver).store j = findRide s j := by
  set s1 := updateRide s rid (fun r => { r with status := "accepted" }) with hs1
  set s2 := updateDriver s1 did (fun d =>
    { d with status := .going_to_pickup, current_ride_id := some rid,
             pending_requests := d.pending_requests.erase rid }) with hs2
  have hfs2 : findRide s2 j = findRide s j := by
    rw [show findRide s2 j = findRide s1 j from rfl, hs1]
    exact findRide_updateRide_ne (by intro r h; exact h) hj
  unfold Main.acceptPath
  dsimp only
  rw [← hs1, ← hs2]
  cases hc : Main.cascade did (driver.pending_requests.erase rid) s2 with
  | failure s' =>
    dsimp only
    have hp := cascade_findRide_not_mem did (driver.pending_requests.erase rid) s2 j hjq
    rw [hc] at hp
    exact hp.trans hfs2
  | success s3 =>
    dsimp only
    have hp := cascade_findRide_not_mem did (driver.pending_requests.erase rid) s2 j hjq
    rw [hc] at hp
    cases hfr : findRider (updateDriver s3 did (fun d => { d with pending_requests := [] }))
        ride.rider_id with
    | none =>
      dsimp only
      exact hp.trans hfs2
    | some rider =>
      dsimp only
      exact hp.trans hfs2

theorem rejectPath_findRide_ne {s : Store} {rid did j : String} (hj : j ≠ rid) :
    findRide (Main.rejectPath s rid did).store j = findRide s j := by
  unfold Main.rejectPath
  dsimp only [Res.store]
  rw [send_request_findRide_ne hj]
  exact findRide_updateRide_ne (by intro r h; exact h) hj

theorem respond_preserves_rejected {s : Store} {rid0 : String} {r0 : RideRequest}
    (hr0 : findRide s rid0 = some r0)
    (hst0 : r0.status = "rejected")
    (hq0 : ∀ d ∈ s.drivers, rid0 ∉ d.pending_requests) :
    ∀ rid act, findRide (Main.driver_respond_to_ride s rid act).store rid0 = some r0 := by
  intro rid act
  unfold Main.driver_respond_to_ride
  cases hfr : findRide s rid with
  | none => exact hr0
  | some ride =>
    dsimp only
    by_cases hp : ride.status = "pending"
    · rw [if_pos hp]
      cases ha : ride.assigned_driver_id with
      | none => exact hr0
      | some did =>
        dsimp only
        cases hd : findDriver s did with
        | none => exact hr0
        | some driver =>
          dsimp only
          have hne : rid0 ≠ rid := by
            intro h
            subst h
            have he : ride = r0 := by
              rw [hfr] at hr0
              exact Option.some.inj hr0
            rw [he, hst0] at hp
            exact absurd hp (by decide)
          by_cases hacc : Main.strLower act = "accept"
          · rw [if_pos hacc]
            by_cases hidle : driver.status = DriverStatus.idle
            · rw [if_pos hidle]
              have hjq : rid0 ∉ driver.pending_requests.erase rid :=
                fun h => hq0 driver (keyedFind_mem hd) (List.mem_of_mem_erase h)
              rw [acceptPath_findRide_ne hne hjq]
              exact hr0
            · rw [if_neg hidle]
              exact hr0
          · rw [if_neg hacc]
            by_cases hrej : Main.strLower act = "reject"
            · rw [if_pos hrej, rejectPath_findRide_ne hne]
              exact hr0
            · rw [if_neg hrej]
              exact hr0
    · rw [if_neg hp]
      exact hr0

theorem tickStep_preserves_rejected {st : Store} {rid0 q : String} {r0 : RideRequest}
    (hr0 : findRide st rid0 = some r0) (hst0 : r0.status = "rejected") :
    findRide (Main.tickStep st q).store rid0 = some r0 := by
  unfold Main.tickStep
  cases hfq : findRide st q with
  | none => exact hr0
  | some ride =>
    dsimp only
    by_cases hacc : ride.status = "accepted"
    · rw [if_pos hacc]
      cases ha : ride.assigned_driver_id with
      | none => exact hr0
      | some did =>
        dsimp only
        cases hd : findDriver st did with
        | none => exact hr0
        | some driver =>
          dsimp only
          cases hrdr : findRider st ride.rider_id with
          | none => exact hr0
          | some rider =>
            dsimp only
            have hne : rid0 ≠ q := by
              intro h
              subst h
              have he : ride = r0 := by
                rw [hfq] at hr0
                exact Option.some.inj hr0
              rw [he, hst0] at hacc
              exact absurd hacc (by decide)
            (repeat' split) <;>
              first
              | exact hr0
              | exact (findRide_updateRide_ne (by intro r h; exact h) hne).trans hr0
    · rw [if_neg hacc]
      exact hr0

theorem tickLoop_preserves_rejected {rid0 : String} {r0 : RideRequest}
    (hst0 : r0.status = "rejected") (ids : List String) :
    ∀ st : Store, findRide st rid0 = some r0 →
      findRide (Main.tickLoop ids st).store rid0 = some r0 := by
  induction ids with
  | nil => intro st h; exact h
  | cons q rest ih =>
    intro st h
    unfold Main.tickLoop
    cases hstep : Main.tickStep st q with
    | failure s' =>
      have hq := tickStep_preserves_rejected (q := q) h hst0
      rw [hstep] at hq
      exact hq
    | success s' =>
      have hq := tickStep_preserves_rejected (q := q) h hst0
      rw [hstep] at hq
      dsimp only
      exact ih s' hq

/-- C5: routing with no eligible driver marks the request REJECTED with its
assigned driver unset, and REJECTED is terminal: no respond call (on any ride
with any action) and no tick ever changes a REJECTED request again.  (For
respond, the hypothesis that the rejected ride sits in no driver's queue is
a well-formedness property of all reachable stores.) -/
theorem spec_C5 :
    (∀ (s : Store) (rid : String) (ride : RideRequest),
      findRide s rid = some ride →
      Main.find_available_drivers s ride.pickup_location ride.rejected_by = [] →
      findRide (Main.send_request_to_next_driver s rid) rid
        = some { ride with status := "rejected", assigned_driver_id := none }) ∧
    (∀ (s : Store) (rid0 : String) (r0 : RideRequest),
      findRide s rid0 = some r0 → r0.status = "rejected" →
      (∀ d ∈ s.drivers, rid0 ∉ d.pending_requests) →
      ∀ rid act, findRide (Main.driver_respond_to_ride s rid act).store rid0 = some r0) ∧
    (∀ (s : Store) (rid0 : String) (r0 : RideRequest),
      findRide s rid0 = some r0 → r0.status = "rejected" →
      findRide (Main.tick s).store rid0 = some r0) := by
  refine ⟨?_, ?_, ?_⟩
  · intro s rid ride h havail
    rw [send_request_of_no_driver h havail,
      findRide_updateRide_self (by intro r hr; exact hr), h]
    rfl
  · intro s rid0 r0 hr0 hst0 hq0
    exact respond_preserves_rejected hr0 hst0 hq0
  · intro s rid0 r0 hr0 hst0
    unfold Main.tick
    exact tickLoop_preserves_rejected hst0 _ _ hr0

/-- Store with a single terminally rejected ride for the C5 witness. -/
def c5Store : Store :=
  { drivers := [],
    riders := [],
    ride_requests := [⟨"ride1", "r1", ⟨1, 0⟩, ⟨2, 0⟩, "rejected", none, ["d1"]⟩],
    current_tick := 0 }

/-- Witness for C5 at `c5Store`: re-routing keeps it rejected and unassigned,
respond and tick leave it untouched. -/
theorem spec_C5_witness :
    findRide (Main.send_request_to_next_driver c5Store "ride1") "ride1"
      = some ⟨"ride1", "r1", ⟨1, 0⟩, ⟨2, 0⟩, "rejected", none, ["d1"]⟩ ∧
    findRide (Main.driver_respond_to_ride c5Store "ride1" "accept").store "ride1"
      = some ⟨"ride1", "r1", ⟨1, 0⟩, ⟨2, 0⟩, "rejected", none, ["d1"]⟩ ∧
    findRide (Main.tick c5Store).store "ride1"
      = some ⟨"ride1", "r1", ⟨1, 0⟩, ⟨2, 0⟩, "rejected", none, ["d1"]⟩ :=
  ⟨spec_C5.1 c5Store "ride1" ⟨"ride1", "r1", ⟨1, 0⟩, ⟨2, 0⟩, "rejected", none, ["d1"]⟩
      (by decide) (by decide),
   spec_C5.2.1 c5Store "ride1" ⟨"ride1", "r1", ⟨1, 0⟩, ⟨2, 0⟩, "rejected", none, ["d1"]⟩
      (by decide) (by decide) (by decide) "ride1" "accept",
   spec_C5.2.2 c5Store "ride1" ⟨"ride1", "r1", ⟨1, 0⟩, ⟨2, 0⟩, "rejected", none, ["d1"]⟩
      (by decide) (by decide)⟩

/-! ### Preservation of the assigned/status invariant -/

/-- Ride ids are pairwise distinct (dict keys; holds for every reachable
store, where ride ids are fresh uuids). -/
def RideIdsNodup (s : Store) : Prop :=
  (s.ride_requests.map RideRequest.id).Nodup

/-- Driver queues are duplicate-free and only hold PENDING rides (holds for
every reachable store). -/
def QueuesWF (s : Store) : Prop :=
  ∀ d ∈ s.drivers, d.pending_requests.Nodup ∧
    ∀ q ∈ d.pending_requests, ∀ rq, findRide s q = some rq → rq.status = "pending"

theorem inv_updateRide {s : Store} {i : String} {f : RideRequest → RideRequest}
    (hinv : AssignedIffActive s) (hnd : RideIdsNodup s)
    (h : ∀ r, findRide s i = some r →
      ((f r).assigned_driver_id ≠ none ↔
        ((f r).status = "pending" ∨ (f r).status = "accepted" ∨ (f r).status = "completed"))) :
    AssignedIffActive (updateRide s i f) := by
  intro r' hr'
  rcases mem_keyedUpd_nodup hnd hr' with ⟨hold, -⟩ | ⟨r, hfind, heq⟩
  · exact hinv r' hold
  · subst heq
    exact h r hfind

theorem nodup_updateRide {s : Store} {i : String} {f : RideRequest → RideRequest}
    (hf : ∀ r, r.id = i → (f r).id = i) (hnd : RideIdsNodup s) :
    RideIdsNodup (updateRide s i f) := by
  show ((keyedUpd RideRequest.id i f s.ride_requests).map RideRequest.id).Nodup
  rw [keys_keyedUpd hf]
  exact hnd

theorem nodup_send_request {s : Store} {rid : String} (hnd : RideIdsNodup s) :
    RideIdsNodup (Main.send_request_to_next_driver s rid) := by
  cases h : findRide s rid with
  | none =>
    unfold Main.send_request_to_next_driver
    rw [h]
    exact hnd
  | some ride =>
    cases havail : Main.find_available_drivers s ride.pickup_location ride.rejected_by with
    | nil =>
      rw [send_request_of_no_driver h havail]
      exact nodup_updateRide (by intro r hr; exact hr) hnd
    | cons p rest =>
      obtain ⟨nid, dd⟩ := p
      rw [send_request_of_driver h havail]
      exact nodup_updateRide (by intro r hr; exact hr) hnd

theorem send_request_inv {s : Store} {rid : String}
    (hinv : AssignedIffActive s) (hnd : RideIdsNodup s)
    (hstat : ∀ ride, findRide s rid = some ride →
      (ride.status = "pending" ∨ ride.status = "accepted" ∨ ride.status = "completed")) :
    AssignedIffActive (Main.send_request_to_next_driver s rid) := by
  cases h : findRide s rid with
  | none =>
    unfold Main.send_request_to_next_driver
    rw [h]
    exact hinv
  | some ride =>
    cases havail : Main.find_available_drivers s ride.pickup_location ride.rejected_by with
    | nil =>
      rw [send_request_of_no_driver h havail]
      apply inv_updateRide hinv hnd
      intro r hr
      exact ⟨fun hne => absurd rfl hne,
        fun hor => by rcases hor with h1 | h1 | h1 <;> simp at h1⟩
    | cons p rest =>
      obtain ⟨nid, dd⟩ := p
      rw [send_request_of_driver h havail]
      apply inv_updateRide hinv hnd
      intro r hr
      have hr' : findRide s rid = some r := hr
      rw [h] at hr'
      have hre : ride = r := Option.some.inj hr'
      subst hre
      exact ⟨fun _ => hstat ride h, fun _ => Option.some_ne_none nid⟩

theorem cascade_step_inv {st : Store} {q did : String} {rq : RideRequest}
    (hq : findRide st q = some rq) (hqp : rq.status = "pending")
    (hnd : RideIdsNodup st) (hinv : AssignedIffActive st) :
    AssignedIffActive (Main.send_request_to_next_driver
      (updateRide st q (fun r =>
        { r with rejected_by := r.rejected_by ++ [did], assigned_driver_id := none })) q) := by
  set s1 := updateRide st q (fun r =>
    { r with rejected_by := r.rejected_by ++ [did], assigned_driver_id := none }) with hs1
  have hnd1 : RideIdsNodup s1 := by
    rw [hs1]
    exact nodup_updateRide (by intro r h; exact h) hnd
  have hq1 : findRide s1 q
      = some { rq with rejected_by := rq.rejected_by ++ [did], assigned_driver_id := none } := by
    rw [hs1, findRide_updateRide_self (by intro r h; exact h), hq]
    rfl
  cases havail : Main.find_available_drivers s1
      ({ rq with rejected_by := rq.rejected_by ++ [did], assigned_driver_id := none } : RideRequest).pickup_location
      ({ rq with rejected_by := rq.rejected_by ++ [did], assigned_driver_id := none } : RideRequest).rejected_by with
  | nil =>
    rw [send_request_of_no_driver hq1 havail]
    intro r' hr'
    rcases mem_keyedUpd_nodup hnd1 hr' with ⟨hold, hne⟩ | ⟨r, hfind, heq⟩
    · rcases mem_keyedUpd_nodup hnd hold with ⟨hold2, -⟩ | ⟨r, hfind2, heq2⟩
      · exact hinv r' hold2
      · exfalso
        apply hne
        rw [heq2]
        exact show r.id = q from keyedFind_key hfind2
    · subst heq
      exact ⟨fun hne2 => absurd rfl hne2,
        fun hor => by rcases hor with h1 | h1 | h1 <;> simp at h1⟩
  | cons p rest =>
    obtain ⟨nid, dd⟩ := p
    rw [send_request_of_driver hq1 havail]
    intro r' hr'
    rcases mem_keyedUpd_nodup hnd1 hr' with ⟨hold, hne⟩ | ⟨r, hfind, heq⟩
    · rcases mem_keyedUpd_nodup hnd hold with ⟨hold2, -⟩ | ⟨r, hfind2, heq2⟩
      · exact hinv r' hold2
      · exfalso
        apply hne
        rw [heq2]
        exact show r.id = q from keyedFind_key hfind2
    · have hr1 : findRide s1 q = some r := hfind
      rw [hq1] at hr1
      have hrr : ({ rq with rejected_by := rq.rejected_by ++ [did], assigned_driver_id := none } : RideRequest) = r :=
        Option.some.inj hr1
      subst heq
      constructor
      · intro _
        left
        show r.status = "pending"
        rw [← hrr]
        exact hqp
      · intro _
        exact Option.some_ne_none nid

theorem cascade_inv (did : String) (snap : List String) :
    ∀ st : Store, RideIdsNodup st → AssignedIffActive st → snap.Nodup →
      (∀ q ∈ snap, ∀ rq, findRide st q = some rq → rq.status = "pending") →
      RideIdsNodup (Main.cascade did snap st).store ∧
      AssignedIffActive (Main.cascade did snap st).store := by
  induction snap with
  | nil => intro st h1 h2 _ _; exact ⟨h1, h2⟩
  | cons q rest ih =>
    intro st hnd hinv hsnd hpend
    unfold Main.cascade
    cases hq : findRide st q with
    | none => exact ⟨hnd, hinv⟩
    | some rq =>
      dsimp only
      have hqp : rq.status = "pending" := hpend q (List.mem_cons_self q rest) rq hq
      have hqrest : q ∉ rest := (List.nodup_cons.mp hsnd).1
      have hnd2 : RideIdsNodup (Main.send_request_to_next_driver
          (updateRide st q (fun r =>
            { r with rejected_by := r.rejected_by ++ [did], assigned_driver_id := none })) q) :=
        nodup_send_request (nodup_updateRide (by intro r h; exact h) hnd)
      have hinv2 : AssignedIffActive (Main.send_request_to_next_driver
          (updateRide st q (fun r =>
            { r with rejected_by := r.rejected_by ++ [did], assigned_driver_id := none })) q) :=
        cascade_step_inv hq hqp hnd hinv
      have hpend2 : ∀ q' ∈ rest, ∀ rq', findRide (Main.send_request_to_next_driver
          (updateRide st q (fun r =>
            { r with rejected_by := r.rejected_by ++ [did], assigned_driver_id := none })) q)
          q' = some rq' → rq'.status = "pending" := by
        intro q' hq'r rq' hfind
        have hne : q' ≠ q := fun h => hqrest (h ▸ hq'r)
        rw [send_request_findRide_ne hne,
          findRide_updateRide_ne (by intro r h; exact h) hne] at hfind
        exact hpend q' (List.mem_cons_of_mem q hq'r) rq' hfind
      exact ih _ hnd2 hinv2 (List.nodup_cons.mp hsnd).2 hpend2

theorem acceptPath_inv {s : Store} {rid did : String} {ride : RideRequest} {driver : Driver}
    (hr : findRide s rid = some ride)
    (hd : findDriver s did = some driver)
    (hinv : AssignedIffActive s) (hnd : RideIdsNodup s) (hwf : QueuesWF s)
    (ha : ride.assigned_driver_id = some did) :
    AssignedIffActive (Main.acceptPath s rid did ride driver).store := by
  set s1 := updateRide s rid (fun r => { r with status := "accepted" }) with hs1
  set s2 := updateDriver s1 did (fun d =>
    { d with status := .going_to_pickup, current_ride_id := some rid,
             pending_requests := d.pending_requests.erase rid }) with hs2
  have hinv1 : AssignedIffActive s1 := by
    rw [hs1]
    apply inv_updateRide hinv hnd
    intro r hrf
    have he : ride = r := by rw [hr] at hrf; exact Option.some.inj hrf
    subst he
    constructor
    · intro _
      right
      left
      rfl
    · intro _
      show ride.assigned_driver_id ≠ none
      rw [ha]
      exact Option.some_ne_none did
  have hnd1 : RideIdsNodup s1 := by
    rw [hs1]
    exact nodup_updateRide (by intro r h; exact h) hnd
  have hinv2 : AssignedIffActive s2 := hinv1
  have hnd2 : RideIdsNodup s2 := hnd1
  have hqnd : driver.pending_requests.Nodup := (hwf driver (keyedFind_mem hd)).1
  have hsnapnd : (driver.pending_requests.erase rid).Nodup := hqnd.erase rid
  have hpend2 : ∀ q ∈ driver.pending_requests.erase rid, ∀ rq,
      findRide s2 q = some rq → rq.status = "pending" := by
    intro q hqe rq hfind
    have hqrid : q ≠ rid := ((hqnd.mem_erase_iff).mp hqe).1
    have hqmem : q ∈ driver.pending_requests := List.mem_of_mem_erase hqe
    have hfs : findRide s q = some rq := by
      have h2 : findRide s1 q = some rq := hfind
      rw [hs1, findRide_updateRide_ne (by intro r h; exact h) hqrid] at h2
      exact h2
    exact (hwf driver (keyedFind_mem hd)).2 q hqmem rq hfs
  have hcinv := cascade_inv did (driver.pending_requests.erase rid) s2 hnd2 hinv2 hsnapnd hpend2
  unfold Main.acceptPath
  dsimp only
  rw [← hs1, ← hs2]
  cases hc : Main.cascade did (driver.pending_requests.erase rid) s2 with
  | failure s' =>
    rw [hc] at hcinv
    exact hcinv.2
  | success s3 =>
    rw [hc] at hcinv
    dsimp only
    cases hfr : findRider (updateDriver s3 did (fun d => { d with pending_requests := [] }))
        ride.rider_id with
    | none => exact hcinv.2
    | some w => exact hcinv.2

theorem rejectPath_inv {s : Store} {rid did : String} {ride : RideRequest}
    (hr : findRide s rid = some ride) (hst : ride.status = "pending")
    (hinv : AssignedIffActive s) (hnd : RideIdsNodup s) :
    AssignedIffActive (Main.rejectPath s rid did).store := by
  set s1 := updateRide s rid (fun r => { r with rejected_by := r.rejected_by ++ [did] }) with hs1
  have hinv1 : AssignedIffActive s1 := by
    rw [hs1]
    apply inv_updateRide hinv hnd
    intro r hrf
    have he : ride = r := by rw [hr] at hrf; exact Option.some.inj hrf
    subst he
    exact hinv ride (keyedFind_mem hr)
  have hnd1 : RideIdsNodup s1 := by
    rw [hs1]
    exact nodup_updateRide (by intro r h; exact h) hnd
  have hstat1 : ∀ r', findRide (updateDriver s1 did (fun d =>
      { d with pending_requests := d.pending_requests.erase rid })) rid = some r' →
      (r'.status = "pending" ∨ r'.status = "accepted" ∨ r'.status = "completed") := by
    intro r' hf
    have h2 : findRide s1 rid = some r' := hf
    rw [hs1, findRide_updateRide_self (by intro r h; exact h), hr] at h2
    have he : ({ ride with rejected_by := ride.rejected_by ++ [did] } : RideRequest) = r' :=
      Option.some.inj h2
    left
    rw [← he]
    exact hst
  unfold Main.rejectPath
  dsimp only [Res.store]
  rw [← hs1]
  exact send_request_inv hinv1 hnd1 hstat1

theorem respond_inv {s : Store} (hinv : AssignedIffActive s) (hnd : RideIdsNodup s)
    (hwf : QueuesWF s) (rid act : String) :
    AssignedIffActive (Main.driver_respond_to_ride s rid act).store := by
  unfold Main.driver_respond_to_ride
  cases hfr : findRide s rid with
  | none => exact hinv
  | some ride =>
    dsimp only
    by_cases hp : ride.status = "pending"
    · rw [if_pos hp]
      cases ha : ride.assigned_driver_id with
      | none => exact hinv
      | some did =>
        dsimp only
        cases hd : findDriver s did with
        | none => exact hinv
        | some driver =>
          dsimp only
          by_cases hacc : Main.strLower act = "accept"
          · rw [if_pos hacc]
            by_cases hidle : driver.status = DriverStatus.idle
            · rw [if_pos hidle]
              exact acceptPath_inv hfr hd hinv hnd hwf ha
            · rw [if_neg hidle]
              exact hinv
          · rw [if_neg hacc]
            by_cases hrej : Main.strLower act = "reject"
            · rw [if_pos hrej]
              exact rejectPath_inv hfr hp hinv hnd
            · rw [if_neg hrej]
              exact hinv
    · rw [if_neg hp]
      exact hinv

theorem request_ride_inv {s : Store} (hinv : AssignedIffActive s)
    (rider_id ride_id : String) :
    AssignedIffActive (Main.request_ride s rider_id ride_id).store := by
  unfold Main.request_ride
  cases hr : findRider s rider_id with
  | none => exact hinv
  | some rider =>
    dsimp only
    cases havail : Main.find_available_drivers s rider.pickup_location [] with
    | nil =>
      intro r' hr'
      rcases List.mem_append.mp hr' with h | h
      · exact hinv r' h
      · rw [List.mem_singleton.mp h]
        exact ⟨fun hne => absurd rfl hne,
          fun hor => by rcases hor with h1 | h1 | h1 <;> simp at h1⟩
    | cons p rest =>
      obtain ⟨nid, dd⟩ := p
      dsimp only
      intro r' hr'
      rcases List.mem_append.mp hr' with h | h
      · exact hinv r' h
      · rw [List.mem_singleton.mp h]
        exact ⟨fun _ => Or.inl rfl, fun _ => Option.some_ne_none nid⟩

theorem tickStep_inv {st : Store} (hinv : AssignedIffActive st) (hnd : RideIdsNodup st)
    (q : String) :
    AssignedIffActive (Main.tickStep st q).store ∧ RideIdsNodup (Main.tickStep st q).store := by
  unfold Main.tickStep
  cases hfq : findRide st q with
  | none => exact ⟨hinv, hnd⟩
  | some ride =>
    dsimp only
    by_cases hacc : ride.status = "accepted"
    · rw [if_pos hacc]
      cases ha : ride.assigned_driver_id with
      | none => exact ⟨hinv, hnd⟩
      | some did =>
        dsimp only
        cases hd : findDriver st did with
        | none => exact ⟨hinv, hnd⟩
        | some driver =>
          dsimp only
          cases hrdr : findRider st ride.rider_id with
          | none => exact ⟨hinv, hnd⟩
          | some rider =>
            dsimp only
            have hcomp : AssignedIffActive (updateRide st q
                (fun r => { r with status := "completed" })) ∧
                RideIdsNodup (updateRide st q (fun r => { r with status := "completed" })) := by
              constructor
              · apply inv_updateRide hinv hnd
                intro r hrf
                have he : ride = r := by rw [hfq] at hrf; exact Option.some.inj hrf
                subst he
                constructor
                · intro _
                  right
                  right
                  rfl
                · intro _
                  show ride.assigned_driver_id ≠ none
                  exact (hinv ride (keyedFind_mem hfq)).mpr (Or.inr (Or.inl hacc))
              · exact nodup_updateRide (by intro r h; exact h) hnd
            (repeat' split) <;> first | exact ⟨hinv, hnd⟩ | exact hcomp
    · rw [if_neg hacc]
      exact ⟨hinv, hnd⟩

theorem tickLoop_inv (ids : List String) :
    ∀ st : Store, AssignedIffActive st → RideIdsNodup st →
      AssignedIffActive (Main.tickLoop ids st).store ∧
      RideIdsNodup (Main.tickLoop ids st).store := by
  induction ids with
  | nil => intro st h1 h2; exact ⟨h1, h2⟩
  | cons q rest ih =>
    intro st h1 h2
    unfold Main.tickLoop
    cases hstep : Main.tickStep st q with
    | failure s' =>
      have hs := tickStep_inv h1 h2 q
      rw [hstep] at hs
      exact hs
    | success s' =>
      have hs := tickStep_inv h1 h2 q
      rw [hstep] at hs
      dsimp only
      exact ih s' hs.1 hs.2

/-- C1 (amended): in a store satisfying the invariant (with duplicate-free
ride ids), after any core operation — create/delete of drivers and riders,
request_ride, respond (in a store with well-formed driver queues), and
advance_tick — every ride request's assigned-driver reference is set if and
only if its status is PENDING, ACCEPTED or COMPLETED.  (The original claim's
iff with {PENDING, ACCEPTED} fails: completion keeps the reference.) -/
theorem spec_C1 (s : Store) (hinv : AssignedIffActive s) (hnd : RideIdsNodup s) :
    (∀ did location, AssignedIffActive (Main.create_driver s did location).store) ∧
    (∀ did, AssignedIffActive (Main.delete_driver s did).store) ∧
    (∀ rid pickup dropoff, AssignedIffActive (Main.create_rider s rid pickup dropoff).store) ∧
    (∀ rid, AssignedIffActive (Main.delete_rider s rid).store) ∧
    (∀ rider_id ride_id, AssignedIffActive (Main.request_ride s rider_id ride_id).store) ∧
    (QueuesWF s → ∀ rid action,
      AssignedIffActive (Main.driver_respond_to_ride s rid action).store) ∧
    AssignedIffActive (Main.tick s).store := by
  refine ⟨?_, ?_, ?_, ?_, ?_, ?_, ?_⟩
  · intro did location
    unfold Main.create_driver
    split <;> exact hinv
  · intro did
    unfold Main.delete_driver
    split <;> exact hinv
  · intro rid pickup dropoff
    unfold Main.create_rider
    split
    · exact hinv
    · split
      · exact hinv
      · split <;> exact hinv
  · intro rid
    unfold Main.delete_rider
    split <;> exact hinv
  · intro rider_id ride_id
    exact request_ride_inv hinv rider_id ride_id
  · intro hwf rid action
    exact respond_inv hinv hnd hwf rid action
  · unfold Main.tick
    exact (tickLoop_inv (s.ride_requests.map RideRequest.id)
      { s with current_tick := s.current_tick + 1 } hinv hnd).1

/-- Witness for C1's amended invariant: the accept of ride1 in `c2Store`
(which triggers the cascade) preserves the invariant. -/
theorem spec_C1_witness :
    AssignedIffActive (Main.driver_respond_to_ride c2Store "ride1" "accept").store :=
  (spec_C1 c2Store (by unfold AssignedIffActive; decide) (by unfold RideIdsNodup; decide)
    ).2.2.2.2.2.1 (by unfold QueuesWF; decide) "ride1" "accept"
